import Mathlib

/-
Verification of the jvserve request-dispatch layer against its design
specification.  The embedding covers, from `jvserve/lib/agent_interface.py`:
the webhook key codec (`generate_cipher_alphabet`, `encrypt_webhook_key`,
`decrypt_webhook_key`), the webhook and action-walker request handlers
(`webhook_exec`, `action_walker_exec`), and the credential acquisition flow
(`get_user_context`, `get_user_context_async`); and, from
`jvserve/lib/file_interface.py`, the local and S3 storage backends.

Strings are modelled as `List Char`.  The Python string predicates
(`str.isalpha`, `str.isdigit`, `str.lower`, `str.upper`) are modelled with
their ASCII semantics, which is exact for all ASCII inputs (the secrets,
keys and identifiers the system actually handles).
-/

set_option maxRecDepth 8000
set_option linter.unusedVariables false

/-! ## Character model -/

/-- `string.ascii_lowercase`. -/
def asciiLowercase : List Char := "abcdefghijklmnopqrstuvwxyz".data

/-- `string.ascii_uppercase`. -/
def asciiUppercase : List Char := "ABCDEFGHIJKLMNOPQRSTUVWXYZ".data

/-- `string.ascii_lowercase + string.ascii_uppercase`, the 52 English
letters in their natural order. -/
def letters52 : List Char := asciiLowercase ++ asciiUppercase

/-! ## Webhook key codec: cipher alphabet

Model of `AgentInterface.generate_cipher_alphabet`
(`agent_interface.py` lines 619-633). -/

/-- The generator-with-`seen`-set comprehension of `generate_cipher_alphabet`:
keep the first occurrence of each alphabetic character, in order.  `acc`
plays the role of the `seen` set (it records exactly the kept characters). -/
def keyUniqueAux (acc : List Char) : List Char → List Char
  | [] => acc
  | c :: rest =>
    if c.isAlpha && !(acc.contains c) then keyUniqueAux (acc ++ [c]) rest
    else keyUniqueAux acc rest

/-- `AgentInterface.generate_cipher_alphabet`, as a function of the
`JIVAS_WEBHOOK_SECRET_KEY` environment value.  Returns the pair
`(key_unique, remaining)`. -/
def generate_cipher_alphabet (secret : List Char) : List Char × List Char :=
  let secretKey := secret.map Char.toLower ++ secret.map Char.toUpper
  let keyUnique := keyUniqueAux [] secretKey
  let remaining :=
    letters52.filter (fun c => !(keyUnique.contains c) && c.isAlpha)
  (keyUnique, remaining)

/-- The full 52-character substitution alphabet derived from a secret:
first component concatenated with second component. -/
def cipher52 (secret : List Char) : List Char :=
  (generate_cipher_alphabet secret).1 ++ (generate_cipher_alphabet secret).2

/-- `str.translate` with a `str.maketrans(src, dst)` table: characters found
in the table are substituted, all others pass through unchanged. -/
def str_translate (tbl : List (Char × Char)) (s : List Char) : List Char :=
  s.map (fun c => ((tbl.lookup c).getD c))

/-- The encoding table `str.maketrans(ascii_letters, cipher alphabet)`. -/
def encTable (secret : List Char) : List (Char × Char) :=
  letters52.zip (cipher52 secret)

/-- The decoding table `str.maketrans(cipher alphabet, ascii_letters)`. -/
def decTable (secret : List Char) : List (Char × Char) :=
  (cipher52 secret).zip letters52

/-! ## JSON string serialization

`json.dumps` with its defaults (`ensure_ascii=True`) and the compact
separators `(",", ":")` used by `encrypt_webhook_key`. -/

/-- Lowercase hex digit, as emitted inside `\uXXXX` escapes by `json.dumps`. -/
def hexDigitLower (n : Nat) : Char :=
  if n < 10 then Char.ofNat (48 + n) else Char.ofNat (87 + n)

/-- Uppercase hex digit, as emitted inside `%XX` escapes by `urllib.parse.quote`. -/
def hexDigitUpper (n : Nat) : Char :=
  if n < 10 then Char.ofNat (48 + n) else Char.ofNat (55 + n)

/-- Four lowercase hex digits of a number below 0x10000. -/
def hex4Lower (n : Nat) : List Char :=
  [hexDigitLower (n / 4096 % 16), hexDigitLower (n / 256 % 16),
   hexDigitLower (n / 16 % 16), hexDigitLower (n % 16)]

/-- `json.dumps` escaping of one character of a string (default
`ensure_ascii=True`): printable ASCII other than quote and backslash passes
through; quote, backslash and the named control characters get two-character
escapes; every other character (other controls, and everything at or above
0x7F) becomes `\uXXXX` with lowercase hex, astral characters as a UTF-16
surrogate pair. -/
def jsonEscapeChar (c : Char) : List Char :=
  if c = '"' then ['\\', '"']
  else if c = '\\' then ['\\', '\\']
  else if c.toNat < 0x20 then
    if c.toNat = 8 then ['\\', 'b']
    else if c.toNat = 9 then ['\\', 't']
    else if c.toNat = 10 then ['\\', 'n']
    else if c.toNat = 12 then ['\\', 'f']
    else if c.toNat = 13 then ['\\', 'r']
    else '\\' :: 'u' :: hex4Lower c.toNat
  else if c.toNat < 0x7F then [c]
  else if c.toNat < 0x10000 then '\\' :: 'u' :: hex4Lower c.toNat
  else
    ('\\' :: 'u' :: hex4Lower (0xD800 + (c.toNat - 0x10000) / 0x400)) ++
    ('\\' :: 'u' :: hex4Lower (0xDC00 + (c.toNat - 0x10000) % 0x400))

/-- `json.dumps` of a string value: the escaped characters between quotes. -/
def jsonDumpString (s : List Char) : List Char :=
  '"' :: (s.flatMap jsonEscapeChar) ++ ['"']

/-- `json.dumps({"agent_id": a, "module_root": m, "walker": w},
separators=(",", ":"))`: the fixed-shape compact object built by
`encrypt_webhook_key` (dict insertion order preserved, no whitespace). -/
def dumpsWebhookKey (a m w : List Char) : List Char :=
  '{' :: jsonDumpString "agent_id".data ++
  ':' :: jsonDumpString a ++
  ',' :: jsonDumpString "module_root".data ++
  ':' :: jsonDumpString m ++
  ',' :: jsonDumpString "walker".data ++
  ':' :: jsonDumpString w ++ ['}']

/-! ## Percent-encoding (`urllib.parse.quote` / `unquote`) -/

/-- The characters `urllib.parse.quote` leaves unescaped: the `ALWAYS_SAFE`
set (ASCII letters, digits, `_`, `.`, `-`, `~`) plus the default
`safe='/'`. -/
def quoteSafe (c : Char) : Bool :=
  c.isAlpha || c.isDigit || c = '_' || c = '.' || c = '-' || c = '~' || c = '/'

/-- UTF-8 encoding of one character, as `str.encode('utf-8')`. -/
def utf8Bytes (c : Char) : List Nat :=
  let n := c.toNat
  if n < 0x80 then [n]
  else if n < 0x800 then [0xC0 + n / 64, 0x80 + n % 64]
  else if n < 0x10000 then [0xE0 + n / 4096, 0x80 + n / 64 % 64, 0x80 + n % 64]
  else [0xF0 + n / 0x40000, 0x80 + n / 4096 % 64, 0x80 + n / 64 % 64, 0x80 + n % 64]

/-- `urllib.parse.quote(s)` with the default `safe='/'`: safe characters pass
through; every other character is UTF-8 encoded and each byte written as
`%XX` with uppercase hex digits. -/
def urlquote (s : List Char) : List Char :=
  s.flatMap (fun c =>
    if quoteSafe c then [c]
    else (utf8Bytes c).flatMap
      (fun b => ['%', hexDigitUpper (b / 16), hexDigitUpper (b % 16)]))

/-- Numeric value of a hex digit; `unquote` accepts both cases. -/
def hexVal (c : Char) : Option Nat :=
  if '0' ≤ c ∧ c ≤ '9' then some (c.toNat - 48)
  else if 'a' ≤ c ∧ c ≤ 'f' then some (c.toNat - 87)
  else if 'A' ≤ c ∧ c ≤ 'F' then some (c.toNat - 55)
  else none

/-- First pass of `urllib.parse.unquote`: each valid `%XX` escape becomes the
byte it denotes; a `%` not followed by two hex digits stays a literal `%`.
The fuel argument only bounds the recursion (one unit per processed
character); the wrapper supplies more fuel than the input length, so the
`[]`-on-zero branch is unreachable. -/
def unquoteTokens : Nat → List Char → List (Sum Char Nat)
  | 0, _ => []
  | _, [] => []
  | fuel + 1, c :: rest =>
    if c = '%' then
      match rest with
      | c1 :: c2 :: rest2 =>
        match hexVal c1, hexVal c2 with
        | some h, some l => Sum.inr (16 * h + l) :: unquoteTokens fuel rest2
        | _, _ => Sum.inl '%' :: unquoteTokens fuel rest
      | [] => [Sum.inl c]
      | [c1] => [Sum.inl c, Sum.inl c1]
    else Sum.inl c :: unquoteTokens fuel rest

/-- Decode one multibyte UTF-8 sequence headed by byte `b` given the
following tokens: the resulting character (U+FFFD on malformed input,
matching `errors='replace'`; lone surrogates and overlong encodings are
rejected as in CPython's decoder) and how many following byte tokens the
sequence consumed. -/
def utf8Cont (b : Nat) (rest : List (Sum Char Nat)) : Char × Nat :=
  if 0xC2 ≤ b ∧ b ≤ 0xDF then
    match rest with
    | Sum.inr b2 :: _ =>
      if 0x80 ≤ b2 ∧ b2 ≤ 0xBF then
        (Char.ofNat ((b - 0xC0) * 64 + (b2 - 0x80)), 1)
      else ('�', 0)
    | _ => ('�', 0)
  else if 0xE0 ≤ b ∧ b ≤ 0xEF then
    match rest with
    | Sum.inr b2 :: Sum.inr b3 :: _ =>
      if (0x80 ≤ b2 ∧ b2 ≤ 0xBF) ∧ (0x80 ≤ b3 ∧ b3 ≤ 0xBF) ∧
          (b ≠ 0xE0 ∨ 0xA0 ≤ b2) ∧ (b ≠ 0xED ∨ b2 ≤ 0x9F) then
        (Char.ofNat ((b - 0xE0) * 4096 + (b2 - 0x80) * 64 + (b3 - 0x80)), 2)
      else ('�', 0)
    | _ => ('�', 0)
  else if 0xF0 ≤ b ∧ b ≤ 0xF4 then
    match rest with
    | Sum.inr b2 :: Sum.inr b3 :: Sum.inr b4 :: _ =>
      if (0x80 ≤ b2 ∧ b2 ≤ 0xBF) ∧ (0x80 ≤ b3 ∧ b3 ≤ 0xBF) ∧
          (0x80 ≤ b4 ∧ b4 ≤ 0xBF) ∧
          (b ≠ 0xF0 ∨ 0x90 ≤ b2) ∧ (b ≠ 0xF4 ∨ b2 ≤ 0x8F) then
        (Char.ofNat ((b - 0xF0) * 0x40000 + (b2 - 0x80) * 4096 +
          (b3 - 0x80) * 64 + (b4 - 0x80)), 3)
      else ('�', 0)
    | _ => ('�', 0)
  else ('�', 0)

/-- Second pass of `unquote`: literal characters pass through and runs of
percent-decoded bytes are decoded as UTF-8 with `errors='replace'`.  Fuel as
in `unquoteTokens`. -/
def decodeTokens : Nat → List (Sum Char Nat) → List Char
  | 0, _ => []
  | _, [] => []
  | fuel + 1, Sum.inl c :: rest => c :: decodeTokens fuel rest
  | fuel + 1, Sum.inr b :: rest =>
    if b < 0x80 then Char.ofNat b :: decodeTokens fuel rest
    else (utf8Cont b rest).1 ::
      decodeTokens fuel (rest.drop (utf8Cont b rest).2)

/-- `urllib.parse.unquote`. -/
def urlunquote (s : List Char) : List Char :=
  decodeTokens (s.length + 1) (unquoteTokens (s.length + 1) s)

/-! ## JSON values and `json.loads` -/

/-- A parsed JSON value.  Numbers keep a decimal mantissa and exponent
(`1.5e2` parses to `num 15 1`); `json.loads` distinguishes int and float,
but only the value and its truthiness are observable here. -/
inductive JsonValue where
  | null
  | bool (b : Bool)
  | num (mantissa : Int) (exp10 : Int)
  | str (s : List Char)
  | arr (elems : List JsonValue)
  | obj (members : List (List Char × JsonValue))
  | nan
  | inf (neg : Bool)

/-- JSON whitespace. -/
def isJsonWs (c : Char) : Bool := c = ' ' || c = '\t' || c = '\n' || c = '\r'

def skipWs : List Char → List Char
  | [] => []
  | c :: rest => if isJsonWs c then skipWs rest else c :: rest

/-- Combined value of four hex digits. -/
def hex4Val (h1 h2 h3 h4 : Char) : Option Nat :=
  match hexVal h1, hexVal h2, hexVal h3, hexVal h4 with
  | some a, some b, some c, some d => some (4096 * a + 256 * b + 16 * c + d)
  | _, _, _, _ => none

/-- Parse the digits of a `\u` escape (surrogate pairs recombined): the
decoded character and the number of characters consumed (4, or 10 for a
pair).  A lone surrogate escape is rejected: CPython would build a
lone-surrogate `str`, which has no counterpart among Lean scalar values. -/
def parseUEscape : List Char → Option (Char × Nat)
  | h1 :: h2 :: h3 :: h4 :: rest3 =>
    match hex4Val h1 h2 h3 h4 with
    | some code =>
      if 0xD800 ≤ code ∧ code ≤ 0xDBFF then
        match rest3 with
        | e1 :: e2 :: g1 :: g2 :: g3 :: g4 :: _ =>
          if e1 = '\\' ∧ e2 = 'u' then
            match hex4Val g1 g2 g3 g4 with
            | some code2 =>
              if 0xDC00 ≤ code2 ∧ code2 ≤ 0xDFFF then
                some (Char.ofNat
                  (0x10000 + (code - 0xD800) * 0x400 + (code2 - 0xDC00)), 10)
              else none
            | none => none
          else none
        | _ => none
      else if 0xDC00 ≤ code ∧ code ≤ 0xDFFF then none
      else some (Char.ofNat code, 4)
    | none => none
  | _ => none

/-- Decode one backslash escape (the character after the backslash onward):
the denoted character and the number of characters consumed. -/
def parseEscape : List Char → Option (Char × Nat)
  | [] => none
  | e :: rest =>
    if e = '"' then some ('"', 1)
    else if e = '\\' then some ('\\', 1)
    else if e = '/' then some ('/', 1)
    else if e = 'b' then some ('\x08', 1)
    else if e = 'f' then some ('\x0C', 1)
    else if e = 'n' then some ('\n', 1)
    else if e = 'r' then some ('\r', 1)
    else if e = 't' then some ('\t', 1)
    else if e = 'u' then (parseUEscape rest).map (fun p => (p.1, 1 + p.2))
    else none

/-- JSON string body (after the opening quote), strict mode: raw control
characters are rejected, escapes are decoded, the closing quote ends the
string.  Returns the decoded characters and the remaining input.  Fuel
bounds the recursion (one unit per decoded character); callers supply more
fuel than the input length. -/
def parseStrBody : Nat → List Char → Option (List Char × List Char)
  | 0, _ => none
  | _, [] => none
  | fuel + 1, c :: rest =>
    if c = '"' then some ([], rest)
    else if c = '\\' then
      match parseEscape rest with
      | some (d, k) =>
        (parseStrBody fuel (rest.drop k)).map (fun p => (d :: p.1, p.2))
      | none => none
    else if c.toNat < 0x20 then none
    else (parseStrBody fuel rest).map (fun p => (c :: p.1, p.2))

/-- Leading run of ASCII digits. -/
def digitsSpan : List Char → (List Char × List Char)
  | [] => ([], [])
  | c :: rest =>
    if c.isDigit then
      let p := digitsSpan rest
      (c :: p.1, p.2)
    else ([], c :: rest)

def digitsToNat (ds : List Char) : Nat :=
  ds.foldl (fun acc c => 10 * acc + (c.toNat - 48)) 0

/-- Optional fraction part `.digits`; a dot with no digit is an error. -/
def parseFrac : List Char → Option (List Char × List Char)
  | '.' :: r =>
    match digitsSpan r with
    | ([], _) => none
    | (ds, rest) => some (ds, rest)
  | s => some ([], s)

/-- Optional exponent part `[eE][+-]?digits`. -/
def parseExp : List Char → Option (Int × List Char)
  | [] => some (0, [])
  | e :: r =>
    if e = 'e' ∨ e = 'E' then
      let p : Int × List Char := match r with
        | '+' :: rr => (1, rr)
        | '-' :: rr => (-1, rr)
        | _ => (1, r)
      match digitsSpan p.2 with
      | ([], _) => none
      | (ds, rest) => some (p.1 * (digitsToNat ds : Int), rest)
    else some (0, e :: r)

/-- JSON number per the grammar used by `json.loads`:
`-?(0|[1-9][0-9]*)(\.[0-9]+)?([eE][+-]?[0-9]+)?`. -/
def parseNumber (s : List Char) : Option (JsonValue × List Char) :=
  let p : Bool × List Char := match s with
    | '-' :: r => (true, r)
    | _ => (false, s)
  match digitsSpan p.2 with
  | ([], _) => none
  | (d :: ds, r1) =>
    if d = '0' ∧ ds ≠ [] then none
    else
      match parseFrac r1 with
      | none => none
      | some (fds, r2) =>
        match parseExp r2 with
        | none => none
        | some (ex, r3) =>
          let mant : Nat := digitsToNat (d :: ds) * 10 ^ fds.length + digitsToNat fds
          some (.num (if p.1 then -(mant : Int) else (mant : Int))
            (ex - fds.length), r3)

/-- Python dict insertion as performed while parsing an object: an existing
key keeps its position and receives the new value, a new key is appended. -/
def insertKV : List (List Char × JsonValue) → List Char → JsonValue →
    List (List Char × JsonValue)
  | [], k, v => [(k, v)]
  | (k1, v1) :: rest, k, v =>
    if k1 = k then (k1, v) :: rest else (k1, v1) :: insertKV rest k v

mutual

/-- The `json.loads` value parser.  Fuel decreases at each nested parse; the
top-level entry supplies more fuel than the input length, which the grammar
(every nesting step consumes input) cannot exhaust.  The CPython extras
`NaN` / `Infinity` / `-Infinity` are accepted as in the default scanner,
which tries the number grammar first and the `-Infinity` literal only when
it fails. -/
def parseValue : Nat → List Char → Option (JsonValue × List Char)
  | 0, _ => none
  | fuel + 1, s =>
    match skipWs s with
    | [] => none
    | c :: rest =>
      if c = '{' then
        match skipWs rest with
        | c2 :: rest2 =>
          if c2 = '}' then some (.obj [], rest2)
          else parseMembers fuel [] (c2 :: rest2)
        | [] => parseMembers fuel [] []
      else if c = '[' then
        match skipWs rest with
        | c2 :: rest2 =>
          if c2 = ']' then some (.arr [], rest2)
          else parseElements fuel [] (c2 :: rest2)
        | [] => parseElements fuel [] []
      else if c = '"' then
        match parseStrBody (rest.length + 1) rest with
        | some (cs, rest2) => some (.str cs, rest2)
        | none => none
      else if c = 't' then
        match rest with
        | 'r' :: 'u' :: 'e' :: rest2 => some (.bool true, rest2)
        | _ => none
      else if c = 'f' then
        match rest with
        | 'a' :: 'l' :: 's' :: 'e' :: rest2 => some (.bool false, rest2)
        | _ => none
      else if c = 'n' then
        match rest with
        | 'u' :: 'l' :: 'l' :: rest2 => some (.null, rest2)
        | _ => none
      else if c = 'N' then
        match rest with
        | 'a' :: 'N' :: rest2 => some (.nan, rest2)
        | _ => none
      else if c = 'I' then
        match rest with
        | 'n' :: 'f' :: 'i' :: 'n' :: 'i' :: 't' :: 'y' :: rest2 =>
          some (.inf false, rest2)
        | _ => none
      else if c = '-' ∨ c.isDigit then
        match parseNumber (c :: rest) with
        | some r => some r
        | none =>
          if c = '-' then
            match rest with
            | 'I' :: 'n' :: 'f' :: 'i' :: 'n' :: 'i' :: 't' :: 'y' :: rest2 =>
              some (.inf true, rest2)
            | _ => none
          else none
      else none

/-- Object members after the opening brace (first key onward):
`"key" ws : value ws (, ws "key" ...)* }`. -/
def parseMembers : Nat → List (List Char × JsonValue) → List Char →
    Option (JsonValue × List Char)
  | 0, _, _ => none
  | fuel + 1, acc, s =>
    match s with
    | c :: rest =>
      if c = '"' then
        match parseStrBody (rest.length + 1) rest with
        | some (k, rest2) =>
          match skipWs rest2 with
          | c3 :: rest3 =>
            if c3 = ':' then
              match parseValue fuel rest3 with
              | some (v, rest4) =>
                match skipWs rest4 with
                | c5 :: rest5 =>
                  if c5 = ',' then
                    parseMembers fuel (insertKV acc k v) (skipWs rest5)
                  else if c5 = '}' then some (.obj (insertKV acc k v), rest5)
                  else none
                | [] => none
              | none => none
            else none
          | [] => none
        | none => none
      else none
    | [] => none

/-- Array elements after the opening bracket (first element onward). -/
def parseElements : Nat → List JsonValue → List Char →
    Option (JsonValue × List Char)
  | 0, _, _ => none
  | fuel + 1, acc, s =>
    match parseValue fuel s with
    | some (v, rest) =>
      match skipWs rest with
      | c2 :: rest2 =>
        if c2 = ',' then parseElements fuel (acc ++ [v]) rest2
        else if c2 = ']' then some (.arr (acc ++ [v]), rest2)
        else none
      | [] => none
    | none => none

end

/-- `json.loads`: parse one document, allowing only trailing whitespace. -/
def loads (s : List Char) : Option JsonValue :=
  match parseValue (s.length + 1) s with
  | some (v, rest) => if skipWs rest = [] then some v else none
  | none => none

/-- Python truthiness (`bool(x)`) of a parsed JSON value; the nonfinite
floats `nan`, `inf` and `-inf` are all truthy. -/
def JsonValue.truthy : JsonValue → Bool
  | .null => false
  | .bool b => b
  | .num m _ => m != 0
  | .str s => !s.isEmpty
  | .arr xs => !xs.isEmpty
  | .obj kvs => !kvs.isEmpty
  | .nan => true
  | .inf _ => true

/-- `dict.get(k)` on a parsed object's members. -/
def jsonGet (kvs : List (List Char × JsonValue)) (k : List Char) :
    Option JsonValue :=
  match kvs with
  | [] => none
  | (k1, v) :: rest => if k1 = k then some v else jsonGet rest k

/-! ## The webhook key codec -/

/-- `AgentInterface.encrypt_webhook_key` (lines 636-654), as a function of
the configured secret: serialize the routing tuple as compact JSON,
substitute letters through the derived alphabet, percent-encode. -/
def encrypt_webhook_key (secret agent_id module_root walker : List Char) :
    List Char :=
  urlquote (str_translate (encTable secret)
    (dumpsWebhookKey agent_id module_root walker))

/-- `AgentInterface.decrypt_webhook_key` (lines 657-680): percent-decode,
substitute back through the inverse alphabet, parse as JSON; a parse failure
is caught and an empty dict is returned. -/
def decrypt_webhook_key (secret key : List Char) : JsonValue :=
  match loads (str_translate (decTable secret) (urlunquote key)) with
  | some v => v
  | none => .obj []


/-- The routing tuple the webhook dispatcher extracts from a decoded key:
the three fields, when the decode result is an object holding all of them
as strings (mirrors the `args.get` extraction in `webhook_exec`). -/
def decryptTuple (secret key : List Char) :
    Option (List Char × List Char × List Char) :=
  match decrypt_webhook_key secret key with
  | .obj kvs =>
    match jsonGet kvs "agent_id".data, jsonGet kvs "module_root".data,
        jsonGet kvs "walker".data with
    | some (.str a), some (.str m), some (.str w) => some (a, m, w)
    | _, _, _ => none
  | _ => none

/-- The ASCII token stream produced by quoting an all-ASCII string. -/
def asciiToken (c : Char) : Sum Char Nat :=
  if quoteSafe c then Sum.inl c else Sum.inr c.toNat

/-! ## Request handler models (`webhook_exec`, `action_walker_exec`)

The handlers are modelled as functions of the request, the configured
webhook secret, and an environment of oracles for the external
collaborators: whether `load_context_async` yields a context, and the
outcome of the walker invocation (`_Jac.spawn_call`).  A `PyError` result
models an uncaught Python exception escaping the handler (FastAPI would
surface it as a 500). -/

inductive Method where
  | get
  | post

inductive PyError where
  | attributeError
  | osError
  | keyError

/-- The call parameters a webhook walker receives: the query parameters
(GET) or the parsed JSON body (POST). -/
inductive CallParams where
  | query (q : List (List Char × List Char))
  | body (v : JsonValue)

/-- The walker's raw return value as the handler sees it
(`_Jac.spawn_call(...).response`). -/
inductive SpawnResp where
  | strv (s : List Char)
  | jsonv (v : JsonValue)
  | nonev

/-- A webhook request: method, query parameters, the JSON body parse outcome
(`none` models a missing or unparsable body, which the handler only logs),
and the opaque key path segment. -/
structure WebhookRequest where
  method : Method
  queryParams : List (List Char × List Char)
  bodyJson : Option JsonValue
  key : List Char

/-- Environment of a webhook dispatch: whether context loading yields a
context (`load_context_async` can return `None`), and the walker invocation
outcome for given call parameters (`.error` models `spawn_call` raising). -/
structure DispatchEnv where
  ctxAvailable : Bool
  spawn : CallParams → Except Unit SpawnResp

/-- An HTTP response as produced by the handler: status code and
JSON-encoded content. -/
structure HttpResp where
  status : Nat
  content : JsonValue

/-- `JSONResponse(status_code=200, content="200 OK")`. -/
def placeholderResp : HttpResp := ⟨200, .str "200 OK".data⟩

/-- The `params` value `webhook_exec` assembles: query parameters, replaced
by the JSON body when a POST body parses. -/
def webhookParams (req : WebhookRequest) : CallParams :=
  match req.method, req.bodyJson with
  | Method.post, some v => CallParams.body v
  | _, _ => CallParams.query req.queryParams

/-- `AgentInterface.webhook_exec` (`agent_interface.py` lines 49-122).
The decoded key is checked with Python truthiness: a falsy decode result
(including the `{}` returned on parse failure) and a dict missing any of the
three routing fields yield the `"200 OK"` placeholder.  A truthy non-dict
decode result raises `AttributeError` at `args.get`; a missing context
raises `AttributeError` at the unconditional `ctx.close()`.  A walker
exception is caught (leaving the placeholder response); a truthy string
result is parsed as JSON (the raw string is returned if that parse raises,
since the exception is caught after the assignment). -/
def webhook_exec (secret : List Char) (req : WebhookRequest)
    (env : DispatchEnv) : Except PyError HttpResp :=
  let params := webhookParams req
  let args := decrypt_webhook_key secret req.key
  if args.truthy then
    match args with
    | .obj kvs =>
      if !((jsonGet kvs "agent_id".data).getD .null).truthy ||
          !((jsonGet kvs "walker".data).getD .null).truthy ||
          !((jsonGet kvs "module_root".data).getD .null).truthy then
        Except.ok placeholderResp
      else if env.ctxAvailable then
        match env.spawn params with
        | Except.ok resp =>
          match resp with
          | .nonev => Except.ok ⟨200, .null⟩
          | .strv s =>
            if s.isEmpty then Except.ok ⟨200, .str s⟩
            else
              match loads s with
              | some v => Except.ok ⟨200, v⟩
              | none => Except.ok ⟨200, .str s⟩
          | .jsonv v => Except.ok ⟨200, v⟩
        | Except.error _ => Except.ok placeholderResp
      else Except.error PyError.attributeError
    | _ => Except.error PyError.attributeError
  else Except.ok placeholderResp

/-- An uploaded attachment: filename, declared content type, and the read
outcome (`.error` models `await file.read()` raising). -/
structure Attachment where
  name : List Char
  contentType : List Char
  content : Except Unit (List Nat)

/-- Whether a parsed JSON value is hashable as a Python dict key: `str`,
numbers (finite or not), `bool` and `None` are; `list` and `dict` raise
`TypeError` when hashed. -/
def jsonHashable : JsonValue → Bool
  | .arr _ => false
  | .obj _ => false
  | _ => true

/-- Whether `dict.update(x)` succeeds on the value parsed from the `args`
form field: a JSON object always updates; a JSON array updates when every
element is a two-element sequence whose first component is hashable (an
unhashable key, i.e. a list or dict, makes the update raise `TypeError`);
anything else raises. -/
def updateCompatible : JsonValue → Bool
  | .obj _ => true
  | .arr elems => elems.all (fun e =>
      match e with
      | .arr [k, _] => jsonHashable k
      | .str [_, _] => true
      | _ => false)
  | _ => false

/-- A multipart request to the action-walker route.  FastAPI rejects
requests missing a mandatory form field before the handler runs; an absent
value is modelled as the empty string, which the handler's own check
treats as missing. -/
structure ActionRequest where
  agent_id : List Char
  module_root : List Char
  walker : List Char
  args : Option (List Char)
  attachments : List Attachment

structure ActionEnv where
  ctxAvailable : Bool
  spawnResult : Except Unit SpawnResp

/-- The raw walker return value as serialized into the route's response. -/
def respContent : SpawnResp → JsonValue
  | .strv s => .str s
  | .jsonv v => v
  | .nonev => .null

/-- `AgentInterface.action_walker_exec` (`agent_interface.py` lines
125-195).  The try-block assembles the attribute set: parsing `args` and
reading every attachment happen before the mandatory-field check, so a bad
`args` string or an unreadable attachment yields the 500
`"internal server error"` response even when fields are missing.  A missing
context raises `AttributeError` at the unconditional `ctx.close()`.  A
walker exception leaves the initial 500 `"unable to complete request"`
response in place. -/
def action_walker_exec (req : ActionRequest) (env : ActionEnv) :
    Except PyError HttpResp :=
  let argsOk : Bool :=
    match req.args with
    | none => true
    | some s =>
      match loads s with
      | some v => updateCompatible v
      | none => false
  let filesOk : Bool := req.attachments.all (fun f =>
    match f.content with
    | Except.ok _ => true
    | Except.error _ => false)
  if !argsOk || !filesOk then
    Except.ok ⟨500, .str "internal server error".data⟩
  else if req.agent_id.isEmpty || req.walker.isEmpty ||
      req.module_root.isEmpty then
    Except.ok ⟨401, .str "missing required parameters".data⟩
  else if env.ctxAvailable then
    match env.spawnResult with
    | Except.ok resp => Except.ok ⟨200, respContent resp⟩
    | Except.error _ => Except.ok ⟨500, .str "unable to complete request".data⟩
  else Except.error PyError.attributeError

/-! ## Credential acquisition (`get_user_context`, `get_user_context_async`)

The process-wide cached credential (the class attributes `ROOT_ID`, `TOKEN`,
`EXPIRATION`) is threaded explicitly; the outbound HTTP calls are a stub
transport giving the outcome of each of the at most three calls the flow
makes.  The result is the new cached state, the returned `ctx` dict
(possibly partially populated), and the trace of outbound calls. -/

structure Cred where
  root_id : List Char
  token : List Char
  expiration : List Char

inductive AuthCall where
  | login
  | register

/-- The JSON fields the flow reads from an auth response; an absent field
models a `KeyError` on access. -/
structure AuthJson where
  user_root_id : Option (List Char)
  token : Option (List Char)
  user_expiration : Option (List Char)

structure AuthResponse where
  status : Nat
  json : AuthJson

/-- Stub transport: outcomes of the outbound calls in the order the flow
makes them; `.error` models the HTTP client raising. -/
structure AuthTransport where
  login1 : Except Unit AuthResponse
  register : Except Unit AuthResponse
  login2 : Except Unit AuthResponse

/-- The `ctx` dict the flow returns. -/
structure CtxDict where
  root_id : Option (List Char)
  token : Option (List Char)
  expiration : Option (List Char)

def emptyCtx : CtxDict := ⟨none, none, none⟩

/-- `AgentInterface.EXPIRATION = ""`, as done by every exception handler. -/
def clearExp (st : Cred) : Cred := { st with expiration := [] }

/-- Python `str.isdigit` (ASCII semantics). -/
def isDigitStr (s : List Char) : Bool := !s.isEmpty && s.all Char.isDigit

/-- The cache-hit test (lines 445-450): `EXPIRATION and EXPIRATION.isdigit()
and int(EXPIRATION) > now`. -/
def credFresh (st : Cred) (now : Nat) : Bool :=
  !st.expiration.isEmpty && isDigitStr st.expiration &&
    digitsToNat st.expiration > now

/-- `AgentInterface.get_user_context` (`agent_interface.py` lines 438-524),
the synchronous variant.  On the initial-login-success path the three class
attributes are assigned one statement at a time, so a 200 response missing a
later field leaves a partial update behind (the `KeyError` is caught by the
outer handler, which only clears `EXPIRATION`).  On the
register-then-retry-login-success path the code stores nothing: its success
log interpolates `ctx['root_id']`, which was never set on that path, so the
log statement itself raises `KeyError`, the handler clears `EXPIRATION`, and
the empty dict is returned. -/
def get_user_context (st : Cred) (now : Nat)
    (user password : Option (List Char)) (tr : AuthTransport) :
    Cred × CtxDict × List AuthCall :=
  if credFresh st now then
    (st, ⟨some st.root_id, some st.token, some st.expiration⟩, [])
  else if (user.getD []).isEmpty || (password.getD []).isEmpty then
    (st, emptyCtx, [])
  else
    match tr.login1 with
    | Except.error _ => (clearExp st, emptyCtx, [AuthCall.login])
    | Except.ok resp =>
      if resp.status = 200 then
        match resp.json.user_root_id with
        | none => (clearExp st, emptyCtx, [AuthCall.login])
        | some r =>
          match resp.json.token with
          | none => (clearExp { st with root_id := r },
              { emptyCtx with root_id := some r }, [AuthCall.login])
          | some t =>
            match resp.json.user_expiration with
            | none => (clearExp { st with root_id := r, token := t },
                ⟨some r, some t, none⟩, [AuthCall.login])
            | some e => (⟨r, t, e⟩, ⟨some r, some t, some e⟩, [AuthCall.login])
      else
        match tr.register with
        | Except.error _ =>
          (clearExp st, emptyCtx, [AuthCall.login, AuthCall.register])
        | Except.ok rr =>
          if rr.status = 201 then
            match tr.login2 with
            | Except.error _ =>
              (clearExp st, emptyCtx,
                [AuthCall.login, AuthCall.register, AuthCall.login])
            | Except.ok lr =>
              if lr.status = 200 then
                (clearExp st, emptyCtx,
                  [AuthCall.login, AuthCall.register, AuthCall.login])
              else
                (st, emptyCtx,
                  [AuthCall.login, AuthCall.register, AuthCall.login])
          else (st, emptyCtx, [AuthCall.login, AuthCall.register])

/-- `AgentInterface.get_user_context_async` (`agent_interface.py` lines
527-616).  Identical to the synchronous variant except in the
retry-login-success branch: the response values are stored into the
returned dict only (never into the class attributes), field by field, with
a `KeyError` on a missing field caught by the outer handler. -/
def get_user_context_async (st : Cred) (now : Nat)
    (user password : Option (List Char)) (tr : AuthTransport) :
    Cred × CtxDict × List AuthCall :=
  if credFresh st now then
    (st, ⟨some st.root_id, some st.token, some st.expiration⟩, [])
  else if (user.getD []).isEmpty || (password.getD []).isEmpty then
    (st, emptyCtx, [])
  else
    match tr.login1 with
    | Except.error _ => (clearExp st, emptyCtx, [AuthCall.login])
    | Except.ok resp =>
      if resp.status = 200 then
        match resp.json.user_root_id with
        | none => (clearExp st, emptyCtx, [AuthCall.login])
        | some r =>
          match resp.json.token with
          | none => (clearExp { st with root_id := r },
              { emptyCtx with root_id := some r }, [AuthCall.login])
          | some t =>
            match resp.json.user_expiration with
            | none => (clearExp { st with root_id := r, token := t },
                ⟨some r, some t, none⟩, [AuthCall.login])
            | some e => (⟨r, t, e⟩, ⟨some r, some t, some e⟩, [AuthCall.login])
      else
        match tr.register with
        | Except.error _ =>
          (clearExp st, emptyCtx, [AuthCall.login, AuthCall.register])
        | Except.ok rr =>
          if rr.status = 201 then
            match tr.login2 with
            | Except.error _ =>
              (clearExp st, emptyCtx,
                [AuthCall.login, AuthCall.register, AuthCall.login])
            | Except.ok lr =>
              if lr.status = 200 then
                match lr.json.user_root_id with
                | none => (clearExp st, emptyCtx,
                    [AuthCall.login, AuthCall.register, AuthCall.login])
                | some r =>
                  match lr.json.token with
                  | none => (clearExp st, { emptyCtx with root_id := some r },
                      [AuthCall.login, AuthCall.register, AuthCall.login])
                  | some t =>
                    match lr.json.user_expiration with
                    | none => (clearExp st, ⟨some r, some t, none⟩,
                        [AuthCall.login, AuthCall.register, AuthCall.login])
                    | some e => (st, ⟨some r, some t, some e⟩,
                        [AuthCall.login, AuthCall.register, AuthCall.login])
              else
                (st, emptyCtx,
                  [AuthCall.login, AuthCall.register, AuthCall.login])
          else (st, emptyCtx, [AuthCall.login, AuthCall.register])

/-! ## Storage backends (`file_interface.py`)

The local filesystem is a path-to-bytes map plus fault oracles standing for
OS errors raised by the underlying primitives (keyed by the file path the
operation works on); the S3 client is a stub giving the outcome of each
boto3 call.  A `PyError` result models an exception propagating out of the
operation to the caller. -/

abbrev FileBytes := List Nat

/-- `os.path.join(root, filename)` with POSIX semantics: an absolute second
component replaces the first; an empty root contributes nothing. -/
def joinPath (root filename : List Char) : List Char :=
  match filename with
  | '/' :: _ => filename
  | _ =>
    if root.isEmpty then filename
    else if root.getLast? = some '/' then root ++ filename
    else root ++ '/' :: filename

/-- Insert-or-replace a file in a path-to-bytes map. -/
def insertFile : List (List Char × FileBytes) → List Char → FileBytes →
    List (List Char × FileBytes)
  | [], p, b => [(p, b)]
  | (q, c) :: rest, p, b =>
    if q = p then (q, b) :: rest else (q, c) :: insertFile rest p b

structure Disk where
  contents : List (List Char × FileBytes)
  readFault : List Char → Bool
  writeFault : List Char → Bool
  mkdirFault : List Char → Bool
  removeFault : List Char → Bool

/-- `os.path.exists`. -/
def diskExists (d : Disk) (p : List Char) : Bool := (d.contents.lookup p).isSome

/-- `LocalFileInterface.get_file` (`file_interface.py` lines 34-39):
existence is checked first (absence reports `None`), but the `open`/`read`
is not wrapped in any handler, so an OS fault propagates. -/
def LocalFileInterface.get_file (d : Disk) (root name : List Char) :
    Except PyError (Option FileBytes) :=
  let p := joinPath root name
  if diskExists d p then
    if d.readFault p then Except.error PyError.osError
    else Except.ok (d.contents.lookup p)
  else Except.ok none

/-- `LocalFileInterface.save_file` (lines 41-46): `os.makedirs` then an
`open(.., "wb")` write, with no exception handling; returns `True` on
success together with the new disk state. -/
def LocalFileInterface.save_file (d : Disk) (root name : List Char)
    (content : FileBytes) : Except PyError (Disk × Bool) :=
  let p := joinPath root name
  if d.mkdirFault p then Except.error PyError.osError
  else if d.writeFault p then Except.error PyError.osError
  else Except.ok ({ d with contents := insertFile d.contents p content }, true)

/-- `LocalFileInterface.delete_file` (lines 48-53): existing files are
removed (`True`), missing files report `False`; the `os.remove` itself is
unguarded. -/
def LocalFileInterface.delete_file (d : Disk) (root name : List Char) :
    Except PyError (Disk × Bool) :=
  let p := joinPath root name
  if diskExists d p then
    if d.removeFault p then Except.error PyError.osError
    else Except.ok
      ({ d with contents := d.contents.filter (fun e => !(e.1 = p : Bool)) }, true)
  else Except.ok (d, false)

/-- `LocalFileInterface.get_file_url` (lines 55-59): the configured public
base URL plus the relative name, only if the file exists on disk. -/
def LocalFileInterface.get_file_url (d : Disk) (root name baseUrl : List Char) :
    Option (List Char) :=
  let p := joinPath root name
  if diskExists d p then some (baseUrl ++ '/' :: name) else none

/-- A stub boto3 S3 client: outcomes of the underlying calls per object key;
`presign` also receives the expiry seconds passed by the caller. -/
structure S3Stub where
  getObject : List Char → Except Unit FileBytes
  putObject : List Char → FileBytes → Except Unit Unit
  deleteObject : List Char → Except Unit Unit
  presign : List Char → Nat → Except Unit (List Char)

/-- `S3FileInterface.get_file` (lines 92-98): any backend exception is
swallowed and reported as `None`. -/
def S3FileInterface.get_file (s3 : S3Stub) (root name : List Char) :
    Except PyError (Option FileBytes) :=
  Except.ok (match s3.getObject (joinPath root name) with
    | Except.ok b => some b
    | Except.error _ => none)

/-- `S3FileInterface.save_file` (lines 100-108): any backend exception is
swallowed and reported as `False`. -/
def S3FileInterface.save_file (s3 : S3Stub) (root name : List Char)
    (content : FileBytes) : Except PyError Bool :=
  Except.ok (match s3.putObject (joinPath root name) content with
    | Except.ok _ => true
    | Except.error _ => false)

/-- `S3FileInterface.delete_file` (lines 110-116): any backend exception is
swallowed and reported as `False`. -/
def S3FileInterface.delete_file (s3 : S3Stub) (root name : List Char) :
    Except PyError Bool :=
  Except.ok (match s3.deleteObject (joinPath root name) with
    | Except.ok _ => true
    | Except.error _ => false)

/-- `S3FileInterface.get_file_url` (lines 118-128): a pre-signed URL with a
3600-second expiry, requested for every filename with no existence check;
a backend exception is swallowed and reported as `None`. -/
def S3FileInterface.get_file_url (s3 : S3Stub) (root name : List Char) :
    Except PyError (Option (List Char)) :=
  Except.ok (match s3.presign (joinPath root name) 3600 with
    | Except.ok u => some u
    | Except.error _ => none)

/-! ## Concrete instances used to evaluate the handler and credential models -/

/-- A stale cached credential (expiration `"0"`). -/
def credW : Cred := ⟨"r0".data, "t0".data, "0".data⟩

/-- A fresh cached credential (expiration `"99"`, ahead of time `5`). -/
def credFW : Cred := ⟨"r".data, "t".data, "99".data⟩

/-- A transport whose initial login succeeds with a fully populated 200. -/
def trW : AuthTransport :=
  ⟨Except.ok ⟨200, ⟨some "r1".data, some "t1".data, some "9".data⟩⟩,
    Except.ok ⟨500, ⟨none, none, none⟩⟩,
    Except.ok ⟨500, ⟨none, none, none⟩⟩⟩

/-- An empty local disk with no fault oracles tripped. -/
def diskW : Disk :=
  ⟨[], fun _ => false, fun _ => false, fun _ => false, fun _ => false⟩

/-- An S3 stub whose presign call succeeds and whose other calls raise. -/
def s3W : S3Stub :=
  ⟨fun _ => Except.error (), fun _ _ => Except.error (),
    fun _ => Except.error (), fun _ _ => Except.ok "u".data⟩

/-! ## Lemmas: percent-encoding round trip on ASCII text -/

theorem hexVal_hexDigitUpper {d : Nat} (h : d < 16) :
    hexVal (hexDigitUpper d) = some d := by
  interval_cases d <;> decide

theorem quoteSafe_ne_percent {c : Char} (h : quoteSafe c) : c ≠ '%' := by
  intro hc
  subst hc
  simp [quoteSafe] at h

theorem unquoteTokens_cons_of_ne {c : Char} (h : c ≠ '%') (fuel : Nat)
    (rest : List Char) :
    unquoteTokens (fuel + 1) (c :: rest) = Sum.inl c :: unquoteTokens fuel rest := by
  rw [unquoteTokens.eq_def]
  simp only [if_neg h]

theorem unquoteTokens_pct (b : Nat) (hb : b < 256) (fuel : Nat) (rest : List Char) :
    unquoteTokens (fuel + 1)
      ('%' :: hexDigitUpper (b / 16) :: hexDigitUpper (b % 16) :: rest) =
    Sum.inr b :: unquoteTokens fuel rest := by
  have h1 : b / 16 < 16 := by omega
  have h2 : b % 16 < 16 := by omega
  rw [unquoteTokens.eq_def]
  simp only [if_pos rfl, hexVal_hexDigitUpper h1, hexVal_hexDigitUpper h2, if_true]
  rw [Nat.div_add_mod]

theorem decodeTokens_inl (fuel : Nat) (c : Char) (rest : List (Sum Char Nat)) :
    decodeTokens (fuel + 1) (Sum.inl c :: rest) = c :: decodeTokens fuel rest := by
  rw [decodeTokens.eq_def]

theorem decodeTokens_ascii {b : Nat} (hb : b < 0x80) (fuel : Nat)
    (rest : List (Sum Char Nat)) :
    decodeTokens (fuel + 1) (Sum.inr b :: rest) =
      Char.ofNat b :: decodeTokens fuel rest := by
  rw [decodeTokens.eq_def]
  simp only [if_pos hb]

theorem unquoteTokens_urlquote (s : List Char)
    (hascii : ∀ c ∈ s, c.toNat < 0x80) :
    ∀ fuel, (urlquote s).length < fuel →
    unquoteTokens fuel (urlquote s) = s.map asciiToken := by
  induction s with
  | nil =>
    intro fuel hf
    match fuel, hf with
    | fuel + 1, _ => rfl
  | cons c rest ih =>
    intro fuel hf
    have hc : c.toNat < 0x80 := hascii c (List.mem_cons_self c rest)
    have hrest : ∀ x ∈ rest, x.toNat < 0x80 :=
      fun x hx => hascii x (List.mem_cons_of_mem c hx)
    by_cases hsafe : quoteSafe c
    · have hq : urlquote (c :: rest) = c :: urlquote rest := by
        simp only [urlquote, List.flatMap_cons, if_pos hsafe, List.singleton_append]
      rw [hq] at hf ⊢
      simp only [List.length_cons] at hf
      match fuel, hf with
      | fuel + 1, hf =>
        rw [unquoteTokens_cons_of_ne (quoteSafe_ne_percent hsafe),
          ih hrest fuel (by omega), List.map_cons, asciiToken, if_pos hsafe]
    · have hq : urlquote (c :: rest) =
          '%' :: hexDigitUpper (c.toNat / 16) :: hexDigitUpper (c.toNat % 16) ::
          urlquote rest := by
        simp only [urlquote, List.flatMap_cons, if_neg hsafe, utf8Bytes]
        rw [if_pos hc]
        simp
      rw [hq] at hf ⊢
      simp only [List.length_cons] at hf
      match fuel, hf with
      | fuel + 1, hf =>
        rw [unquoteTokens_pct c.toNat (by omega), ih hrest fuel (by omega),
          List.map_cons, asciiToken, if_neg hsafe]

theorem decodeTokens_map (s : List Char) (hascii : ∀ c ∈ s, c.toNat < 0x80) :
    ∀ fuel, s.length < fuel →
    decodeTokens fuel (s.map asciiToken) = s := by
  induction s with
  | nil =>
    intro fuel hf
    match fuel, hf with
    | fuel + 1, _ => rfl
  | cons c rest ih =>
    intro fuel hf
    have hc : c.toNat < 0x80 := hascii c (List.mem_cons_self c rest)
    have hrest : ∀ x ∈ rest, x.toNat < 0x80 :=
      fun x hx => hascii x (List.mem_cons_of_mem c hx)
    simp only [List.length_cons] at hf
    match fuel, hf with
    | fuel + 1, hf =>
      rw [List.map_cons]
      by_cases hsafe : quoteSafe c
      · rw [asciiToken, if_pos hsafe, decodeTokens_inl, ih hrest fuel (by omega)]
      · rw [asciiToken, if_neg hsafe, decodeTokens_ascii hc, Char.ofNat_toNat,
          ih hrest fuel (by omega)]

theorem length_le_urlquote (s : List Char) : s.length ≤ (urlquote s).length := by
  induction s with
  | nil => simp [urlquote]
  | cons c rest ih =>
    have : urlquote (c :: rest) =
        (if quoteSafe c then [c]
         else (utf8Bytes c).flatMap
           (fun b => ['%', hexDigitUpper (b / 16), hexDigitUpper (b % 16)])) ++
        urlquote rest := by
      simp only [urlquote, List.flatMap_cons]
    rw [this, List.length_append, List.length_cons]
    have hchunk : 1 ≤ (if quoteSafe c then [c]
        else (utf8Bytes c).flatMap
          (fun b => ['%', hexDigitUpper (b / 16), hexDigitUpper (b % 16)])).length := by
      by_cases hsafe : quoteSafe c
      · simp [hsafe]
      · rw [if_neg hsafe]
        rw [utf8Bytes]
        split_ifs <;> simp
    omega

/-- `unquote (quote s) = s` for ASCII text, which is all the codec ever
feeds to `quote`. -/
theorem urlunquote_urlquote (s : List Char) (hascii : ∀ c ∈ s, c.toNat < 0x80) :
    urlunquote (urlquote s) = s := by
  have hle := length_le_urlquote s
  rw [urlunquote, unquoteTokens_urlquote s hascii _ (by omega),
    decodeTokens_map s hascii _ (by omega)]

/-! ## Lemmas: the derived alphabet is a permutation of the 52 letters -/

theorem mem_asciiLowercase {c : Char} : c ∈ asciiLowercase ↔ c.isLower := by
  constructor
  · intro h
    fin_cases h <;> decide
  · intro h
    simp only [Char.isLower, Bool.and_eq_true, decide_eq_true_eq] at h
    obtain ⟨h1, h2⟩ := h
    have h1 : 97 ≤ c.toNat := h1
    have h2 : c.toNat ≤ 122 := h2
    have := Char.ofNat_toNat c
    rw [← this]
    set n := c.toNat with hn
    interval_cases n <;> decide

theorem mem_asciiUppercase {c : Char} : c ∈ asciiUppercase ↔ c.isUpper := by
  constructor
  · intro h
    fin_cases h <;> decide
  · intro h
    simp only [Char.isUpper, Bool.and_eq_true, decide_eq_true_eq] at h
    obtain ⟨h1, h2⟩ := h
    have h1 : 65 ≤ c.toNat := h1
    have h2 : c.toNat ≤ 90 := h2
    have := Char.ofNat_toNat c
    rw [← this]
    set n := c.toNat with hn
    interval_cases n <;> decide

theorem mem_letters52 {c : Char} : c ∈ letters52 ↔ c.isAlpha := by
  simp only [letters52, List.mem_append, mem_asciiLowercase, mem_asciiUppercase,
    Char.isAlpha, Bool.or_eq_true]
  tauto

theorem letters52_nodup : letters52.Nodup := by decide

theorem keyUniqueAux_sub (s : List Char) :
    ∀ acc, ∀ c ∈ keyUniqueAux acc s, c ∈ acc ∨ c.isAlpha := by
  induction s with
  | nil => intro acc c hc; exact Or.inl hc
  | cons x rest ih =>
    intro acc c hc
    simp only [keyUniqueAux] at hc
    by_cases hx : (x.isAlpha && !(acc.contains x)) = true
    · rw [if_pos hx] at hc
      rcases ih (acc ++ [x]) c hc with h | h
      · rcases List.mem_append.mp h with h | h
        · exact Or.inl h
        · simp only [List.mem_singleton] at h
          subst h
          exact Or.inr (Bool.and_elim_left hx)
      · exact Or.inr h
    · rw [if_neg hx] at hc
      exact ih acc c hc

theorem keyUniqueAux_nodup (s : List Char) :
    ∀ acc, acc.Nodup → (keyUniqueAux acc s).Nodup := by
  induction s with
  | nil => intro acc h; exact h
  | cons x rest ih =>
    intro acc h
    simp only [keyUniqueAux]
    by_cases hx : (x.isAlpha && !(acc.contains x)) = true
    · rw [if_pos hx]
      apply ih
      have hnotmem : x ∉ acc := by
        have := Bool.and_elim_right hx
        simpa using this
      simpa [List.nodup_append] using And.intro h hnotmem
    · rw [if_neg hx]
      exact ih acc h

theorem keyUnique_nodup (secret : List Char) :
    (generate_cipher_alphabet secret).1.Nodup := by
  simp only [generate_cipher_alphabet]
  exact keyUniqueAux_nodup _ [] List.nodup_nil

theorem keyUnique_alpha (secret : List Char) :
    ∀ c ∈ (generate_cipher_alphabet secret).1, c.isAlpha := by
  simp only [generate_cipher_alphabet]
  intro c hc
  rcases keyUniqueAux_sub _ [] c hc with h | h
  · simp at h
  · exact h

/-- The derived substitution alphabet is a permutation of the 52 letters. -/
theorem cipher52_perm (secret : List Char) : (cipher52 secret).Perm letters52 := by
  classical
  set ku := (generate_cipher_alphabet secret).1 with hku
  have hnd : ku.Nodup := keyUnique_nodup secret
  have halpha : ∀ c ∈ ku, c.isAlpha := keyUnique_alpha secret
  have hsub : ∀ c ∈ ku, c ∈ letters52 := fun c hc => mem_letters52.mpr (halpha c hc)
  have hrem : (generate_cipher_alphabet secret).2 =
      letters52.filter (fun c => !(ku.contains c) && c.isAlpha) := by
    simp only [generate_cipher_alphabet, hku]
  rw [List.perm_iff_count]
  intro a
  rw [cipher52, hrem, List.count_append, ← hku]
  by_cases hmem : a ∈ ku
  · have h1 : ku.count a = 1 := List.count_eq_one_of_mem hnd hmem
    have h2 : a ∉ letters52.filter (fun c => !(ku.contains c) && c.isAlpha) := by
      intro hin
      have := (List.mem_filter.mp hin).2
      simp [List.elem_iff, hmem] at this
    rw [h1, List.count_eq_zero_of_not_mem h2,
      List.count_eq_one_of_mem letters52_nodup (hsub a hmem)]
  · have h1 : ku.count a = 0 := List.count_eq_zero_of_not_mem hmem
    rw [h1]
    by_cases hl : a ∈ letters52
    · have h2 : a ∈ letters52.filter (fun c => !(ku.contains c) && c.isAlpha) := by
        refine List.mem_filter.mpr ⟨hl, ?_⟩
        simp [List.elem_iff, hmem, mem_letters52.mp hl]
      rw [List.count_eq_one_of_mem
        (letters52_nodup.filter _) h2,
        List.count_eq_one_of_mem letters52_nodup hl]
    · have h2 : a ∉ letters52.filter (fun c => !(ku.contains c) && c.isAlpha) := by
        intro hin
        exact hl (List.mem_filter.mp hin).1
      rw [List.count_eq_zero_of_not_mem h2, List.count_eq_zero_of_not_mem hl]

theorem cipher52_nodup (secret : List Char) : (cipher52 secret).Nodup :=
  (cipher52_perm secret).nodup_iff.mpr letters52_nodup

theorem cipher52_length (secret : List Char) : (cipher52 secret).length = 52 :=
  (cipher52_perm secret).length_eq.trans (by decide)

theorem mem_cipher52 {secret : List Char} {c : Char} :
    c ∈ cipher52 secret ↔ c ∈ letters52 :=
  ⟨fun h => (cipher52_perm secret).mem_iff.mp h,
   fun h => (cipher52_perm secret).mem_iff.mpr h⟩

/-! ## Lemmas: table lookup inversion -/

theorem lookup_zip_eq_none {l₁ l₂ : List Char} {c : Char} (h : c ∉ l₁) :
    (l₁.zip l₂).lookup c = none := by
  induction l₁ generalizing l₂ with
  | nil => cases l₂ <;> rfl
  | cons x xs ih =>
    cases l₂ with
    | nil => rfl
    | cons y ys =>
      simp only [List.mem_cons, not_or] at h
      have hbeq : (c == x) = false := by simpa using h.1
      simp only [List.zip_cons_cons, List.lookup, hbeq]
      exact ih h.2

theorem lookup_zip_inv :
    ∀ (l₁ l₂ : List Char), l₁.Nodup → l₂.Nodup → l₁.length = l₂.length →
    ∀ c ∈ l₁, ∃ d, (l₁.zip l₂).lookup c = some d ∧ d ∈ l₂ ∧
      (l₂.zip l₁).lookup d = some c := by
  intro l₁
  induction l₁ with
  | nil => intro l₂ _ _ _ c hc; simp at hc
  | cons x xs ih =>
    intro l₂ h₁ h₂ hlen c hc
    cases l₂ with
    | nil => simp at hlen
    | cons y ys =>
      rcases List.mem_cons.mp hc with rfl | hmem
      · exact ⟨y, by simp [List.lookup], List.mem_cons_self y ys, by simp [List.lookup]⟩
      · have hx : c ≠ x := fun h => (List.nodup_cons.mp h₁).1 (h ▸ hmem)
        obtain ⟨d, hd1, hd2, hd3⟩ := ih ys (List.nodup_cons.mp h₁).2
          (List.nodup_cons.mp h₂).2 (by simpa using hlen) c hmem
        refine ⟨d, ?_, List.mem_cons_of_mem y hd2, ?_⟩
        · have hbeq : (c == x) = false := by simpa using hx
          simp only [List.zip_cons_cons, List.lookup, hbeq]
          exact hd1
        · have hy : d ≠ y := fun h => (List.nodup_cons.mp h₂).1 (h ▸ hd2)
          have hbeq : (d == y) = false := by simpa using hy
          simp only [List.zip_cons_cons, List.lookup, hbeq]
          exact hd3

theorem map_id_of_forall {α : Type} (f : α → α) (s : List α)
    (h : ∀ x ∈ s, f x = x) : s.map f = s := by
  induction s with
  | nil => rfl
  | cons a t ih =>
    simp only [List.map_cons, h a (List.mem_cons_self a t)]
    rw [ih (fun x hx => h x (List.mem_cons_of_mem a hx))]

theorem translateChar_enc_dec (secret : List Char) (c : Char) :
    (((decTable secret).lookup (((encTable secret).lookup c).getD c)).getD
      (((encTable secret).lookup c).getD c)) = c := by
  by_cases h : c ∈ letters52
  · obtain ⟨d, hd1, hd2, hd3⟩ := lookup_zip_inv letters52 (cipher52 secret)
      letters52_nodup (cipher52_nodup secret)
      (by rw [cipher52_length]; decide) c h
    rw [encTable, decTable] at *
    rw [hd1, Option.getD_some, hd3, Option.getD_some]
  · have h1 : (encTable secret).lookup c = none :=
      lookup_zip_eq_none h
    have h2 : (decTable secret).lookup c = none :=
      lookup_zip_eq_none (fun hc => h (mem_cipher52.mp hc))
    rw [h1, Option.getD_none, h2, Option.getD_none]

/-- Decoding inverts encoding character-for-character: the decode table is the
inverse of the encode table on letters, and both are the identity elsewhere. -/
theorem translate_enc_dec (secret : List Char) (s : List Char) :
    str_translate (decTable secret) (str_translate (encTable secret) s) = s := by
  simp only [str_translate, List.map_map]
  exact map_id_of_forall _ s (fun c _ => translateChar_enc_dec secret c)

/-! ## Lemmas: parsing a dumped JSON string -/

theorem char_toNat_lt (c : Char) : c.toNat < 0x110000 := by
  have h := c.valid
  rcases h with h | h
  · have h2 : c.toNat < 0xD800 := h
    omega
  · obtain ⟨h1, h2⟩ := h
    exact h2

theorem char_not_surrogate (c : Char) : ¬ (0xD800 ≤ c.toNat ∧ c.toNat ≤ 0xDFFF) := by
  have h := c.valid
  rcases h with h | h
  · have h2 : c.toNat < 0xD800 := h
    omega
  · obtain ⟨h1, h2⟩ := h
    have h3 : 0xDFFF < c.toNat := h1
    omega

theorem char_eq_of_toNat {c : Char} {n : Nat} (h : c.toNat = n) : c = Char.ofNat n := by
  rw [← h, Char.ofNat_toNat]

theorem hexVal_hexDigitLower {d : Nat} (h : d < 16) :
    hexVal (hexDigitLower d) = some d := by
  interval_cases d <;> decide

theorem hex4Val_hex4Lower {n : Nat} (h : n < 0x10000) :
    hex4Val (hexDigitLower (n / 4096 % 16)) (hexDigitLower (n / 256 % 16))
      (hexDigitLower (n / 16 % 16)) (hexDigitLower (n % 16)) = some n := by
  simp only [hex4Val, hexVal_hexDigitLower (show n / 4096 % 16 < 16 by omega),
    hexVal_hexDigitLower (show n / 256 % 16 < 16 by omega),
    hexVal_hexDigitLower (show n / 16 % 16 < 16 by omega),
    hexVal_hexDigitLower (show n % 16 < 16 by omega), Option.some.injEq]
  omega

theorem parseUEscape_bmp {c : Char} (hlt : c.toNat < 0x10000) (tail : List Char) :
    parseUEscape (hex4Lower c.toNat ++ tail) = some (c, 4) := by
  have hns := char_not_surrogate c
  simp only [hex4Lower, List.cons_append, List.nil_append, parseUEscape,
    hex4Val_hex4Lower hlt]
  rw [if_neg (by omega), if_neg (by omega), Char.ofNat_toNat]

theorem parseUEscape_pair {hi lo : Nat} (hh1 : 0xD800 ≤ hi) (hh2 : hi ≤ 0xDBFF)
    (hl1 : 0xDC00 ≤ lo) (hl2 : lo ≤ 0xDFFF) (tail : List Char) :
    parseUEscape (hex4Lower hi ++ ('\\' :: 'u' :: hex4Lower lo) ++ tail) =
    some (Char.ofNat (0x10000 + (hi - 0xD800) * 0x400 + (lo - 0xDC00)), 10) := by
  simp only [hex4Lower, List.cons_append, List.nil_append, List.append_assoc,
    parseUEscape, hex4Val_hex4Lower (show hi < 0x10000 by omega)]
  rw [if_pos (by omega)]
  rw [if_pos (show True ∧ True from ⟨trivial, trivial⟩)]
  simp only [hex4Val_hex4Lower (show lo < 0x10000 by omega)]
  rw [if_pos (by omega)]

theorem parseUEscape_astral {c : Char} (h : 0x10000 ≤ c.toNat) (tail : List Char) :
    parseUEscape (hex4Lower (0xD800 + (c.toNat - 0x10000) / 0x400) ++
      ('\\' :: 'u' :: hex4Lower (0xDC00 + (c.toNat - 0x10000) % 0x400)) ++ tail) =
    some (c, 10) := by
  have hmax := char_toNat_lt c
  have hmod : (c.toNat - 0x10000) % 0x400 < 0x400 :=
    Nat.mod_lt _ (by omega)
  rw [parseUEscape_pair (by omega) (by omega) (by omega) (by omega) tail]
  have harg : 0x10000 + (0xD800 + (c.toNat - 0x10000) / 0x400 - 0xD800) * 0x400 +
      (0xDC00 + (c.toNat - 0x10000) % 0x400 - 0xDC00) = c.toNat := by omega
  rw [harg, Char.ofNat_toNat]

theorem parseEscape_u {tail : List Char} {c : Char} {k : Nat}
    (h : parseUEscape tail = some (c, k)) :
    parseEscape ('u' :: tail) = some (c, 1 + k) := by
  simp [parseEscape, h]

theorem parseStrBody_esc {f : Nat} {T s' rest : List Char} {c : Char}
    (hstep : parseStrBody f T = some (s', rest))
    {tail0 : List Char} {k : Nat}
    (hesc : parseEscape tail0 = some (c, k))
    (hdrop : tail0.drop k = T) :
    parseStrBody (f + 1) ('\\' :: tail0) = some (c :: s', rest) := by
  simp only [parseStrBody]
  rw [if_pos trivial, hesc]
  show (parseStrBody f (tail0.drop k)).map (fun p => (c :: p.1, p.2)) =
    some (c :: s', rest)
  rw [hdrop, hstep]
  rfl

theorem parseStrBody_lit {f : Nat} {T s' rest : List Char} {c : Char}
    (hstep : parseStrBody f T = some (s', rest))
    (hq : ¬ c = '"') (hb : ¬ c = '\\') (hctl : ¬ c.toNat < 0x20) :
    parseStrBody (f + 1) (c :: T) = some (c :: s', rest) := by
  simp only [parseStrBody]
  rw [if_neg hq, if_neg hb, if_neg hctl, hstep]
  rfl

theorem parseStrBody_escape (s : List Char) :
    ∀ fuel, (s.flatMap jsonEscapeChar).length < fuel → ∀ rest,
    parseStrBody fuel (s.flatMap jsonEscapeChar ++ '"' :: rest) = some (s, rest) := by
  induction s with
  | nil =>
    intro fuel hf rest
    obtain ⟨f, rfl⟩ : ∃ f, fuel = f + 1 := ⟨fuel - 1, by omega⟩
    simp [parseStrBody]
  | cons c s' ih =>
    intro fuel hf rest
    rw [List.flatMap_cons] at hf ⊢
    rw [List.length_append] at hf
    have hlen1 : 1 ≤ (jsonEscapeChar c).length := by
      rw [jsonEscapeChar]
      split_ifs <;> simp
    obtain ⟨f, rfl⟩ : ∃ f, fuel = f + 1 := ⟨fuel - 1, by omega⟩
    have hf' : (s'.flatMap jsonEscapeChar).length < f := by omega
    have hstep := ih f hf' rest
    rw [List.append_assoc]
    set T := s'.flatMap jsonEscapeChar ++ '"' :: rest with hT
    by_cases hq : c = '"'
    · subst hq
      have hch : jsonEscapeChar '"' = ['\\', '"'] := rfl
      rw [hch]
      simp only [List.cons_append, List.nil_append]
      exact parseStrBody_esc hstep
        (show parseEscape ('"' :: T) = some ('"', 1) by simp [parseEscape])
        (show List.drop 1 ('"' :: T) = T by simp)
    · by_cases hb : c = '\\'
      · subst hb
        have hch : jsonEscapeChar '\\' = ['\\', '\\'] := rfl
        rw [hch]
        simp only [List.cons_append, List.nil_append]
        exact parseStrBody_esc hstep
          (show parseEscape ('\\' :: T) = some ('\\', 1) by simp [parseEscape])
          (show List.drop 1 ('\\' :: T) = T by simp)
      · by_cases hctl : c.toNat < 0x20
        · by_cases h8 : c.toNat = 8
          · have hc : c = '\x08' := by
              rw [char_eq_of_toNat h8]
            subst hc
            have hch : jsonEscapeChar '\x08' = ['\\', 'b'] := rfl
            rw [hch]
            simp only [List.cons_append, List.nil_append]
            exact parseStrBody_esc hstep
              (show parseEscape ('b' :: T) = some ('\x08', 1) by simp [parseEscape])
              (show List.drop 1 ('b' :: T) = T by simp)
          · by_cases h9 : c.toNat = 9
            · have hc : c = '\x09' := by
                rw [char_eq_of_toNat h9]
              subst hc
              have hch : jsonEscapeChar '\x09' = ['\\', 't'] := rfl
              rw [hch]
              simp only [List.cons_append, List.nil_append]
              exact parseStrBody_esc hstep
                (show parseEscape ('t' :: T) = some ('\x09', 1) by simp [parseEscape])
                (show List.drop 1 ('t' :: T) = T by simp)
            · by_cases h10 : c.toNat = 10
              · have hc : c = '\x0A' := by
                  rw [char_eq_of_toNat h10]
                subst hc
                have hch : jsonEscapeChar '\x0A' = ['\\', 'n'] := rfl
                rw [hch]
                simp only [List.cons_append, List.nil_append]
                exact parseStrBody_esc hstep
                  (show parseEscape ('n' :: T) = some ('\x0A', 1) by simp [parseEscape])
                  (show List.drop 1 ('n' :: T) = T by simp)
              · by_cases h12 : c.toNat = 12
                · have hc : c = '\x0C' := by
                    rw [char_eq_of_toNat h12]
                  subst hc
                  have hch : jsonEscapeChar '\x0C' = ['\\', 'f'] := rfl
                  rw [hch]
                  simp only [List.cons_append, List.nil_append]
                  exact parseStrBody_esc hstep
                    (show parseEscape ('f' :: T) = some ('\x0C', 1) by simp [parseEscape])
                    (show List.drop 1 ('f' :: T) = T by simp)
                · by_cases h13 : c.toNat = 13
                  · have hc : c = '\x0D' := by
                      rw [char_eq_of_toNat h13]
                    subst hc
                    have hch : jsonEscapeChar '\x0D' = ['\\', 'r'] := rfl
                    rw [hch]
                    simp only [List.cons_append, List.nil_append]
                    exact parseStrBody_esc hstep
                      (show parseEscape ('r' :: T) = some ('\x0D', 1) by simp [parseEscape])
                      (show List.drop 1 ('r' :: T) = T by simp)
                  · have hch : jsonEscapeChar c = '\\' :: 'u' :: hex4Lower c.toNat := by
                      rw [jsonEscapeChar, if_neg hq, if_neg hb, if_pos hctl,
                        if_neg h8, if_neg h9, if_neg h10, if_neg h12, if_neg h13]
                    rw [hch]
                    simp only [List.cons_append]
                    refine parseStrBody_esc hstep
                      (parseEscape_u (parseUEscape_bmp (by omega) T)) ?_
                    simp [hex4Lower, List.drop]
        · by_cases hpr : c.toNat < 0x7F
          · have hch : jsonEscapeChar c = [c] := by
              rw [jsonEscapeChar, if_neg hq, if_neg hb, if_neg hctl, if_pos hpr]
            rw [hch]
            simp only [List.cons_append, List.nil_append]
            exact parseStrBody_lit hstep hq hb hctl
          · by_cases hbmp : c.toNat < 0x10000
            · have hch : jsonEscapeChar c = '\\' :: 'u' :: hex4Lower c.toNat := by
                rw [jsonEscapeChar, if_neg hq, if_neg hb, if_neg hctl, if_neg hpr,
                  if_pos hbmp]
              rw [hch]
              simp only [List.cons_append]
              refine parseStrBody_esc hstep
                (parseEscape_u (parseUEscape_bmp hbmp T)) ?_
              simp [hex4Lower, List.drop]
            · have hch : jsonEscapeChar c =
                  ('\\' :: 'u' :: hex4Lower (0xD800 + (c.toNat - 0x10000) / 0x400)) ++
                  ('\\' :: 'u' :: hex4Lower (0xDC00 + (c.toNat - 0x10000) % 0x400)) := by
                rw [jsonEscapeChar, if_neg hq, if_neg hb, if_neg hctl, if_neg hpr,
                  if_neg hbmp]
              rw [hch]
              simp only [List.cons_append, List.append_assoc]
              refine parseStrBody_esc hstep
                (parseEscape_u (parseUEscape_astral (by omega) T)) ?_
              simp [hex4Lower, List.drop]

theorem skipWs_cons {c : Char} (h : isJsonWs c = false) (rest : List Char) :
    skipWs (c :: rest) = c :: rest := by
  simp [skipWs, h]

theorem jsonDumpString_append (s y : List Char) :
    jsonDumpString s ++ y = '"' :: (s.flatMap jsonEscapeChar ++ '"' :: y) := by
  simp [jsonDumpString, List.append_assoc, List.cons_append]

theorem parseValue_str (v y : List Char) (f : Nat) :
    parseValue (f + 1) (jsonDumpString v ++ y) = some (.str v, y) := by
  rw [jsonDumpString_append]
  have hb : (v.flatMap jsonEscapeChar).length <
      (v.flatMap jsonEscapeChar ++ '"' :: y).length + 1 := by
    simp [List.length_append]
    omega
  rw [parseValue]
  simp [skipWs, isJsonWs, -List.length_append, -List.length_flatMap]
  rw [parseStrBody_escape v _ hb y]

theorem parseMembers_cons (k v tail : List Char)
    (acc : List (List Char × JsonValue)) (f : Nat) :
    parseMembers (f + 1 + 1) acc
      (jsonDumpString k ++ ':' :: (jsonDumpString v ++ ',' :: tail)) =
    parseMembers (f + 1) (insertKV acc k (.str v)) (skipWs tail) := by
  rw [jsonDumpString_append]
  have hb : (k.flatMap jsonEscapeChar).length <
      (k.flatMap jsonEscapeChar ++
        '"' :: (':' :: (jsonDumpString v ++ ',' :: tail))).length + 1 := by
    simp [List.length_append]
    omega
  rw [parseMembers]
  simp [skipWs, isJsonWs, -List.length_append, -List.length_flatMap,
    -List.length_cons]
  rw [parseStrBody_escape k _ hb]
  simp [skipWs, isJsonWs, -List.length_append, -List.length_flatMap,
    -List.length_cons]
  rw [parseValue_str v _ f]
  simp [skipWs, isJsonWs]

theorem parseMembers_last (k v rest : List Char)
    (acc : List (List Char × JsonValue)) (f : Nat) :
    parseMembers (f + 1 + 1) acc
      (jsonDumpString k ++ ':' :: (jsonDumpString v ++ '}' :: rest)) =
    some (.obj (insertKV acc k (.str v)), rest) := by
  rw [jsonDumpString_append]
  have hb : (k.flatMap jsonEscapeChar).length <
      (k.flatMap jsonEscapeChar ++
        '"' :: (':' :: (jsonDumpString v ++ '}' :: rest))).length + 1 := by
    simp [List.length_append]
    omega
  rw [parseMembers]
  simp [skipWs, isJsonWs, -List.length_append, -List.length_flatMap,
    -List.length_cons]
  rw [parseStrBody_escape k _ hb]
  simp [skipWs, isJsonWs, -List.length_append, -List.length_flatMap,
    -List.length_cons]
  rw [parseValue_str v _ f]
  simp [skipWs, isJsonWs]

theorem parseValue_obj_step {c2 : Char} (h2 : isJsonWs c2 = false)
    (hne : ¬ c2 = '}') (rest2 : List Char) (f : Nat) :
    parseValue (f + 1) ('{' :: c2 :: rest2) = parseMembers f [] (c2 :: rest2) := by
  rw [parseValue, skipWs_cons (by decide)]
  simp [skipWs_cons h2, hne]

theorem parseValue_dumpsWebhookKey (a m w : List Char) (f : Nat) (y : List Char) :
    parseValue (f + 6 + 1) (dumpsWebhookKey a m w ++ y) =
    some (.obj [("agent_id".data, .str a), ("module_root".data, .str m),
      ("walker".data, .str w)], y) := by
  have hsplit : dumpsWebhookKey a m w ++ y =
      '{' :: (jsonDumpString "agent_id".data ++ ':' :: (jsonDumpString a ++ ',' ::
        (jsonDumpString "module_root".data ++ ':' :: (jsonDumpString m ++ ',' ::
        (jsonDumpString "walker".data ++ ':' :: (jsonDumpString w ++ '}' :: y)))))) := by
    simp [dumpsWebhookKey, List.append_assoc, List.cons_append]
  rw [hsplit]
  rw [jsonDumpString_append "agent_id".data]
  rw [parseValue_obj_step (by decide) (by decide)]
  rw [← jsonDumpString_append "agent_id".data]
  rw [show f + 6 = f + 4 + 1 + 1 by omega]
  rw [parseMembers_cons]
  rw [jsonDumpString_append "module_root".data]
  rw [skipWs_cons (by decide)]
  rw [← jsonDumpString_append "module_root".data]
  rw [show f + 4 + 1 = f + 3 + 1 + 1 by omega]
  rw [parseMembers_cons]
  rw [jsonDumpString_append "walker".data]
  rw [skipWs_cons (by decide)]
  rw [← jsonDumpString_append "walker".data]
  rw [show f + 3 + 1 = f + 2 + 1 + 1 by omega]
  rw [parseMembers_last]
  simp [insertKV]

theorem loads_dumpsWebhookKey (a m w : List Char) :
    loads (dumpsWebhookKey a m w) =
    some (.obj [("agent_id".data, .str a), ("module_root".data, .str m),
      ("walker".data, .str w)]) := by
  have hlen : 7 ≤ (dumpsWebhookKey a m w).length := by
    simp [dumpsWebhookKey, jsonDumpString, List.length_append]
    omega
  rw [loads]
  rw [show (dumpsWebhookKey a m w).length + 1 =
    ((dumpsWebhookKey a m w).length - 6) + 6 + 1 by omega]
  rw [show dumpsWebhookKey a m w =
    dumpsWebhookKey a m w ++ [] from (List.append_nil _).symm]
  rw [parseValue_dumpsWebhookKey a m w _ []]
  simp [skipWs]


theorem hexDigitLower_ascii {k : Nat} (h : k < 16) :
    (hexDigitLower k).toNat < 0x80 := by
  interval_cases k <;> decide

theorem mem_uEscape_ascii {d : Char} {n : Nat}
    (hd : d ∈ '\\' :: 'u' :: hex4Lower n) : d.toNat < 0x80 := by
  simp only [hex4Lower, List.mem_cons, List.not_mem_nil, or_false] at hd
  rcases hd with rfl | rfl | rfl | rfl | rfl | rfl
  · decide
  · decide
  · exact hexDigitLower_ascii (by omega)
  · exact hexDigitLower_ascii (by omega)
  · exact hexDigitLower_ascii (by omega)
  · exact hexDigitLower_ascii (by omega)

theorem jsonEscapeChar_ascii (c : Char) : ∀ d ∈ jsonEscapeChar c, d.toNat < 0x80 := by
  intro d hd
  rw [jsonEscapeChar] at hd
  by_cases h1 : c = '"'
  · rw [if_pos h1] at hd
    fin_cases hd <;> decide
  · rw [if_neg h1] at hd
    by_cases h2 : c = '\\'
    · rw [if_pos h2] at hd
      fin_cases hd <;> decide
    · rw [if_neg h2] at hd
      by_cases h3 : c.toNat < 0x20
      · rw [if_pos h3] at hd
        by_cases h4 : c.toNat = 8
        · rw [if_pos h4] at hd
          fin_cases hd <;> decide
        · rw [if_neg h4] at hd
          by_cases h5 : c.toNat = 9
          · rw [if_pos h5] at hd
            fin_cases hd <;> decide
          · rw [if_neg h5] at hd
            by_cases h6 : c.toNat = 10
            · rw [if_pos h6] at hd
              fin_cases hd <;> decide
            · rw [if_neg h6] at hd
              by_cases h7 : c.toNat = 12
              · rw [if_pos h7] at hd
                fin_cases hd <;> decide
              · rw [if_neg h7] at hd
                by_cases h8 : c.toNat = 13
                · rw [if_pos h8] at hd
                  fin_cases hd <;> decide
                · rw [if_neg h8] at hd
                  exact mem_uEscape_ascii hd
      · rw [if_neg h3] at hd
        by_cases h9 : c.toNat < 0x7F
        · rw [if_pos h9] at hd
          simp only [List.mem_singleton] at hd
          subst hd
          omega
        · rw [if_neg h9] at hd
          by_cases h10 : c.toNat < 0x10000
          · rw [if_pos h10] at hd
            exact mem_uEscape_ascii hd
          · rw [if_neg h10] at hd
            rcases List.mem_append.mp hd with h | h
            · exact mem_uEscape_ascii h
            · exact mem_uEscape_ascii h

theorem jsonDumpString_ascii (s : List Char) :
    ∀ c ∈ jsonDumpString s, c.toNat < 0x80 := by
  intro c hc
  simp only [jsonDumpString, List.mem_cons, List.mem_append, List.mem_singleton,
    List.mem_flatMap, List.not_mem_nil, or_false] at hc
  rcases hc with (rfl | ⟨x, _, hx⟩) | rfl
  · decide
  · exact jsonEscapeChar_ascii x c hx
  · decide

theorem dumpsWebhookKey_ascii (a m w : List Char) :
    ∀ c ∈ dumpsWebhookKey a m w, c.toNat < 0x80 := by
  rw [dumpsWebhookKey]
  repeat' refine List.forall_mem_append.mpr ⟨?_, ?_⟩
  all_goals first
    | exact fun c hc => jsonDumpString_ascii _ c hc
    | exact List.forall_mem_singleton.mpr (by decide)
    | (refine List.forall_mem_cons.mpr ⟨by decide, ?_⟩
       exact fun c hc => jsonDumpString_ascii _ c hc)

theorem letters52_ascii : ∀ c ∈ letters52, c.toNat < 0x80 := by decide

theorem lookup_zip_mem {l₁ l₂ : List Char} {c d : Char}
    (h : (l₁.zip l₂).lookup c = some d) : d ∈ l₂ := by
  induction l₁ generalizing l₂ with
  | nil => simp [List.lookup] at h
  | cons x xs ih =>
    cases l₂ with
    | nil => simp [List.lookup] at h
    | cons y ys =>
      simp only [List.zip_cons_cons, List.lookup] at h
      by_cases hcx : (c == x) = true
      · rw [hcx] at h
        simp only [Option.some.injEq] at h
        subst h
        exact List.mem_cons_self y ys
      · rw [Bool.not_eq_true] at hcx
        rw [hcx] at h
        exact List.mem_cons_of_mem y (ih h)

theorem str_translate_enc_ascii (secret s : List Char)
    (h : ∀ c ∈ s, c.toNat < 0x80) :
    ∀ d ∈ str_translate (encTable secret) s, d.toNat < 0x80 := by
  intro d hd
  simp only [str_translate, List.mem_map] at hd
  obtain ⟨c, hcs, rfl⟩ := hd
  cases hl : (encTable secret).lookup c with
  | none => simpa [hl] using h c hcs
  | some e =>
    have he : e ∈ cipher52 secret := by
      rw [encTable] at hl
      exact lookup_zip_mem hl
    have he2 := letters52_ascii e (mem_cipher52.mp he)
    simpa [hl] using he2

/-- C1: for every secret and every tuple of non-empty strings, decoding with
the same secret the key produced by `encrypt_webhook_key` yields exactly the
original routing tuple (the proof in fact holds for all strings; the
non-emptiness hypotheses mirror the claim). -/
theorem webhook_key_roundtrip (secret a m w : List Char)
    (h1 : a ≠ []) (h2 : m ≠ []) (h3 : w ≠ []) :
    decrypt_webhook_key secret (encrypt_webhook_key secret a m w) =
    .obj [("agent_id".data, .str a), ("module_root".data, .str m),
      ("walker".data, .str w)] := by
  simp only [decrypt_webhook_key, encrypt_webhook_key]
  rw [urlunquote_urlquote _ (str_translate_enc_ascii secret _
    (dumpsWebhookKey_ascii a m w)), translate_enc_dec secret,
    loads_dumpsWebhookKey]


/-- Witness for C1 at a concrete secret and tuple. -/
theorem webhook_key_roundtrip_witness :
    ("x".data ≠ ([] : List Char)) ∧ ("m".data ≠ ([] : List Char)) ∧
    ("w".data ≠ ([] : List Char)) ∧
    decrypt_webhook_key "SeCrEt".data
      (encrypt_webhook_key "SeCrEt".data "x".data "m".data "w".data) =
    .obj [("agent_id".data, .str "x".data), ("module_root".data, .str "m".data),
      ("walker".data, .str "w".data)] :=
  ⟨by decide, by decide, by decide,
    webhook_key_roundtrip "SeCrEt".data "x".data "m".data "w".data
      (by decide) (by decide) (by decide)⟩

/-- C3: at the claim's scenario (login fails with 401, registration returns
201, the retry login returns 200 carrying a fresh credential) the code makes
exactly the three outbound calls in order — but the process-wide cached
credential is NOT populated.  The synchronous variant raises `KeyError`
inside its own success log (which reads the never-assigned `ctx['root_id']`),
clears the cached expiration, and returns an empty dict; the asynchronous
variant fills only the returned dict, never the cache.  This contradicts the
code's own log text ("ROOT_ID ... set") and the spec's "cache and return",
so the claim is right and the code is wrong. -/
theorem login_register_retry_never_cached :
    get_user_context ⟨"R0".data, "T0".data, []⟩ 1000
      (some "u".data) (some "p".data)
      ⟨Except.ok ⟨401, ⟨none, none, none⟩⟩,
       Except.ok ⟨201, ⟨none, none, none⟩⟩,
       Except.ok ⟨200, ⟨some "r1".data, some "t1".data,
         some "9999999999".data⟩⟩⟩ =
      (⟨"R0".data, "T0".data, []⟩, emptyCtx,
        [AuthCall.login, AuthCall.register, AuthCall.login]) ∧
    get_user_context_async ⟨"R0".data, "T0".data, []⟩ 1000
      (some "u".data) (some "p".data)
      ⟨Except.ok ⟨401, ⟨none, none, none⟩⟩,
       Except.ok ⟨201, ⟨none, none, none⟩⟩,
       Except.ok ⟨200, ⟨some "r1".data, some "t1".data,
         some "9999999999".data⟩⟩⟩ =
      (⟨"R0".data, "T0".data, []⟩,
        ⟨some "r1".data, some "t1".data, some "9999999999".data⟩,
        [AuthCall.login, AuthCall.register, AuthCall.login]) :=
  ⟨rfl, rfl⟩

/-- C8 counterexample: the distinct secrets "ab" and "aB" derive the same
substitution alphabet (`lower+upper` canonicalization collapses case), so
decoding with the one a key encoded with the other yields the original
tuple, refuting "for every pair of distinct secrets ... does not yield the
original tuple". -/
theorem cross_secret_roundtrip_counterexample :
    ("ab" : String) ≠ "aB" ∧
    decryptTuple "aB".data
      (encrypt_webhook_key "ab".data "x".data "y".data "z".data) =
      some ("x".data, "y".data, "z".data) :=
  ⟨by decide, by decide⟩

/-- C8 (amended): for every secret the derived substitution alphabet (first
component concatenated with second) is a permutation of the 52 English
letters; and decoding with a different secret is not guaranteed to preserve
the tuple — there exist distinct secrets under which the round trip breaks
(though, per the counterexample, distinct secrets can also collide). -/
theorem cipher_alphabet_perm_and_mismatch :
    (∀ secret : List Char,
      ((generate_cipher_alphabet secret).1 ++
        (generate_cipher_alphabet secret).2).Perm letters52) ∧
    (∃ s1 s2 : List Char, s1 ≠ s2 ∧
      decryptTuple s2 (encrypt_webhook_key s1 "x".data "y".data "z".data) ≠
        some ("x".data, "y".data, "z".data)) := by
  constructor
  · intro secret
    exact cipher52_perm secret
  · exact ⟨"A".data, "B".data, by decide, by decide⟩

/-- C9 counterexample: `quote` is called with its default `safe='/'`, so a
routing field containing a slash puts a literal `/` — a path-segment
delimiter — into the produced key. -/
theorem encrypt_key_slash_counterexample :
    '/' ∈ encrypt_webhook_key "ABCDEFGHIJK".data "x".data "a/b".data "w".data := by
  decide

theorem hexDigitUpper_safe {k : Nat} (h : k < 16) :
    quoteSafe (hexDigitUpper k) = true := by
  interval_cases k <;> decide

theorem hexDigitUpper_ne_slash {k : Nat} (h : k < 16) : hexDigitUpper k ≠ '/' := by
  interval_cases k <;> decide

theorem hexDigitLower_ne_slash {k : Nat} (h : k < 16) : hexDigitLower k ≠ '/' := by
  interval_cases k <;> decide

theorem utf8Bytes_lt (c : Char) : ∀ b ∈ utf8Bytes c, b < 256 := by
  have h := char_toNat_lt c
  intro b hb
  rw [utf8Bytes] at hb
  split_ifs at hb with h1 h2 h3
  · simp at hb
    omega
  · simp at hb
    rcases hb with rfl | rfl <;> omega
  · simp at hb
    rcases hb with rfl | rfl | rfl <;> omega
  · simp at hb
    rcases hb with rfl | rfl | rfl | rfl <;> omega

theorem urlquote_charset (s : List Char) :
    ∀ c ∈ urlquote s, quoteSafe c = true ∨ c = '%' := by
  intro c hc
  simp only [urlquote, List.mem_flatMap] at hc
  obtain ⟨x, _, hx⟩ := hc
  by_cases hs : quoteSafe x
  · rw [if_pos hs] at hx
    simp only [List.mem_singleton] at hx
    subst hx
    exact Or.inl hs
  · rw [if_neg hs] at hx
    simp only [List.mem_flatMap] at hx
    obtain ⟨b, hb, hcb⟩ := hx
    have hb256 := utf8Bytes_lt x b hb
    simp only [List.mem_cons, List.not_mem_nil, or_false] at hcb
    rcases hcb with rfl | rfl | rfl
    · exact Or.inr rfl
    · exact Or.inl (hexDigitUpper_safe (by omega))
    · exact Or.inl (hexDigitUpper_safe (by omega))

theorem slash_not_mem_uEscape {n : Nat} : '/' ∉ '\\' :: 'u' :: hex4Lower n := by
  intro h
  simp only [hex4Lower, List.mem_cons, List.not_mem_nil, or_false] at h
  rcases h with h | h | h | h | h | h
  · exact absurd h (by decide)
  · exact absurd h (by decide)
  all_goals exact hexDigitLower_ne_slash (by omega) h.symm

theorem eq_slash_of_mem_jsonEscapeChar {c : Char} (h : '/' ∈ jsonEscapeChar c) :
    c = '/' := by
  rw [jsonEscapeChar] at h
  by_cases h1 : c = '"'
  · rw [if_pos h1] at h
    exact absurd h (by decide)
  rw [if_neg h1] at h
  by_cases h2 : c = '\\'
  · rw [if_pos h2] at h
    exact absurd h (by decide)
  rw [if_neg h2] at h
  by_cases h3 : c.toNat < 0x20
  · rw [if_pos h3] at h
    by_cases h4 : c.toNat = 8
    · rw [if_pos h4] at h
      exact absurd h (by decide)
    rw [if_neg h4] at h
    by_cases h5 : c.toNat = 9
    · rw [if_pos h5] at h
      exact absurd h (by decide)
    rw [if_neg h5] at h
    by_cases h6 : c.toNat = 10
    · rw [if_pos h6] at h
      exact absurd h (by decide)
    rw [if_neg h6] at h
    by_cases h7 : c.toNat = 12
    · rw [if_pos h7] at h
      exact absurd h (by decide)
    rw [if_neg h7] at h
    by_cases h8 : c.toNat = 13
    · rw [if_pos h8] at h
      exact absurd h (by decide)
    rw [if_neg h8] at h
    exact absurd h slash_not_mem_uEscape
  rw [if_neg h3] at h
  by_cases h9 : c.toNat < 0x7F
  · rw [if_pos h9] at h
    simp only [List.mem_singleton] at h
    exact h.symm
  rw [if_neg h9] at h
  by_cases h10 : c.toNat < 0x10000
  · rw [if_pos h10] at h
    exact absurd h slash_not_mem_uEscape
  rw [if_neg h10] at h
  rcases List.mem_append.mp h with h | h <;> exact absurd h slash_not_mem_uEscape

theorem jsonDumpString_no_slash {s : List Char} (hs : '/' ∉ s) :
    ∀ c ∈ jsonDumpString s, c ≠ '/' := by
  intro c hc
  simp only [jsonDumpString, List.mem_cons, List.mem_append, List.mem_singleton,
    List.mem_flatMap, List.not_mem_nil, or_false] at hc
  rcases hc with (rfl | ⟨x, hxs, hx⟩) | rfl
  · decide
  · intro hceq
    subst hceq
    rw [eq_slash_of_mem_jsonEscapeChar hx] at hxs
    exact hs hxs
  · decide

theorem dumpsWebhookKey_no_slash {a m w : List Char}
    (ha : '/' ∉ a) (hm : '/' ∉ m) (hw : '/' ∉ w) :
    ∀ c ∈ dumpsWebhookKey a m w, c ≠ '/' := by
  rw [dumpsWebhookKey]
  repeat' refine List.forall_mem_append.mpr ⟨?_, ?_⟩
  all_goals first
    | exact jsonDumpString_no_slash ha
    | exact jsonDumpString_no_slash hm
    | exact jsonDumpString_no_slash hw
    | exact List.forall_mem_singleton.mpr (by decide)
    | (refine List.forall_mem_cons.mpr ⟨by decide, ?_⟩
       first
         | exact jsonDumpString_no_slash ha
         | exact jsonDumpString_no_slash hm
         | exact jsonDumpString_no_slash hw
         | exact jsonDumpString_no_slash (by decide))

theorem str_translate_enc_no_slash {secret s : List Char}
    (h : ∀ c ∈ s, c ≠ '/') :
    ∀ d ∈ str_translate (encTable secret) s, d ≠ '/' := by
  intro d hd
  simp only [str_translate, List.mem_map] at hd
  obtain ⟨c, hcs, rfl⟩ := hd
  cases hl : (encTable secret).lookup c with
  | none => simpa [hl] using h c hcs
  | some e =>
    have he : e ∈ cipher52 secret := by
      rw [encTable] at hl
      exact lookup_zip_mem hl
    have halpha := mem_letters52.mp (mem_cipher52.mp he)
    intro hds
    simp only [Option.getD_some] at hds
    subst hds
    exact absurd halpha (by decide)

theorem urlquote_no_slash {s : List Char} (h : ∀ c ∈ s, c ≠ '/') :
    '/' ∉ urlquote s := by
  intro hmem
  simp only [urlquote, List.mem_flatMap] at hmem
  obtain ⟨x, hxs, hx⟩ := hmem
  by_cases hs : quoteSafe x
  · rw [if_pos hs] at hx
    simp only [List.mem_singleton] at hx
    exact h x hxs hx.symm
  · rw [if_neg hs] at hx
    simp only [List.mem_flatMap] at hx
    obtain ⟨b, hb, hcb⟩ := hx
    have hb256 := utf8Bytes_lt x b hb
    simp only [List.mem_cons, List.not_mem_nil, or_false] at hcb
    rcases hcb with h1 | h1 | h1
    · exact absurd h1 (by decide)
    · exact hexDigitUpper_ne_slash (by omega) h1.symm
    · exact hexDigitUpper_ne_slash (by omega) h1.symm

/-- C9 (amended): every character of an encrypted webhook key is either in
quote's safe set (the unreserved characters plus `/`, left unescaped by the
default `safe='/'`) or the `%` of a percent escape; consequently the key may
contain the path-segment delimiter `/` exactly when an input field does, and
is delimiter-free for slash-free inputs. -/
theorem encrypt_key_charset (secret a m w : List Char) :
    (∀ c ∈ encrypt_webhook_key secret a m w, quoteSafe c = true ∨ c = '%') ∧
    ('/' ∉ a → '/' ∉ m → '/' ∉ w →
      '/' ∉ encrypt_webhook_key secret a m w) := by
  constructor
  · intro c hc
    rw [encrypt_webhook_key] at hc
    exact urlquote_charset _ c hc
  · intro ha hm hw
    rw [encrypt_webhook_key]
    exact urlquote_no_slash
      (str_translate_enc_no_slash (dumpsWebhookKey_no_slash ha hm hw))

/-- Witness for the amended C9 at a concrete secret and slash-free tuple. -/
theorem encrypt_key_charset_witness :
    ('/' ∉ "x".data) ∧
    '/' ∉ encrypt_webhook_key "K".data "x".data "m".data "w".data :=
  ⟨by decide,
    (encrypt_key_charset "K".data "x".data "m".data "w".data).2
      (by decide) (by decide) (by decide)⟩

/-- C5 (counterexample): with `module_root` missing (empty) but an
unparsable `args` form field (`"{"`), `action_walker_exec` returns the 500
`"internal server error"` response, not the claimed 401: the try-block
parses `args` before the mandatory-field check runs. -/
theorem action_walker_args_counterexample :
    action_walker_exec ⟨"a1".data, "".data, "w1".data, some "\x7b".data, []⟩
        ⟨true, Except.ok SpawnResp.nonev⟩ =
      Except.ok ⟨500, JsonValue.str "internal server error".data⟩ := rfl

/-- C5 (amended): a request missing `agent_id`, `walker`, or `module_root`
gets the 401 `"missing required parameters"` response regardless of the
other fields — provided the optional `args` field parses to an
update-compatible JSON value and every attachment is readable, since those
are processed first and their failures preempt the check with a 500 (see the
counterexample). -/
theorem action_walker_missing_field_401 (req : ActionRequest) (env : ActionEnv)
    (hmiss : (req.agent_id.isEmpty || req.walker.isEmpty ||
      req.module_root.isEmpty) = true)
    (hargs : match req.args with
      | none => True
      | some s => ∃ v, loads s = some v ∧ updateCompatible v = true)
    (hfiles : ∀ f ∈ req.attachments, ∃ b, f.content = Except.ok b) :
    action_walker_exec req env =
      Except.ok ⟨401, JsonValue.str "missing required parameters".data⟩ := by
  have hA : (match req.args with
      | none => true
      | some s =>
        match loads s with
        | some v => updateCompatible v
        | none => false) = true := by
    cases h : req.args with
    | none => rfl
    | some s =>
      rw [h] at hargs
      obtain ⟨v, hv, hc⟩ := hargs
      dsimp only
      rw [hv]
      exact hc
  have hF : req.attachments.all (fun f =>
      match f.content with
      | Except.ok _ => true
      | Except.error _ => false) = true := by
    rw [List.all_eq_true]
    intro f hf
    obtain ⟨b, hb⟩ := hfiles f hf
    rw [hb]
  rw [action_walker_exec]
  dsimp only
  rw [hA, hF]
  rw [if_neg (by decide), if_pos hmiss]

/-- Witness for the amended C5: empty `module_root`, no `args`, no
attachments — the 401 response is produced. -/
theorem action_walker_missing_field_401_witness :
    action_walker_exec ⟨"a1".data, "".data, "w1".data, none, []⟩
        ⟨true, Except.ok SpawnResp.nonev⟩ =
      Except.ok ⟨401, JsonValue.str "missing required parameters".data⟩ :=
  action_walker_missing_field_401 ⟨"a1".data, "".data, "w1".data, none, []⟩
    ⟨true, Except.ok SpawnResp.nonev⟩ (by decide) trivial
    (by intro f hf; cases hf)

/-- C4 (counterexample): a stale cache `("rOld", "tOld", "0")` and a 200
login response carrying `user_root_id` but no `token` field: the sync flow
stores the new root id, keeps the old token, and clears the expiration — a
partially updated triple observable by every later caller. -/
theorem cred_partial_update_counterexample :
    get_user_context ⟨"rOld".data, "tOld".data, "0".data⟩ 5
        (some "u".data) (some "p".data)
        ⟨Except.ok ⟨200, ⟨some "rNew".data, none, none⟩⟩,
          Except.ok ⟨500, ⟨none, none, none⟩⟩,
          Except.ok ⟨500, ⟨none, none, none⟩⟩⟩ =
      (⟨"rNew".data, "tOld".data, []⟩,
        ⟨some "rNew".data, none, none⟩, [AuthCall.login]) := rfl

/-- C4 (amended): provided every 200 response of the initial login carries
all three fields, the cached triple is updated atomically in both flow
variants: afterwards it is unchanged, or merely has its expiration cleared
(the error paths), or is exactly the triple of one successful login
response.  A 200 response missing a later field breaks this (see the
counterexample). -/
theorem cred_update_atomic (st : Cred) (now : Nat)
    (user password : Option (List Char)) (tr : AuthTransport)
    (hwf : ∀ resp, tr.login1 = Except.ok resp → resp.status = 200 →
      ∃ r t e, resp.json = ⟨some r, some t, some e⟩) :
    ((get_user_context st now user password tr).1 = st ∨
     (get_user_context st now user password tr).1 = clearExp st ∨
     ∃ resp r t e, tr.login1 = Except.ok resp ∧ resp.status = 200 ∧
       resp.json = ⟨some r, some t, some e⟩ ∧
       (get_user_context st now user password tr).1 = ⟨r, t, e⟩) ∧
    ((get_user_context_async st now user password tr).1 = st ∨
     (get_user_context_async st now user password tr).1 = clearExp st ∨
     ∃ resp r t e, tr.login1 = Except.ok resp ∧ resp.status = 200 ∧
       resp.json = ⟨some r, some t, some e⟩ ∧
       (get_user_context_async st now user password tr).1 = ⟨r, t, e⟩) := by
  constructor
  · rw [get_user_context]
    split_ifs with hf he
    · exact Or.inl rfl
    · exact Or.inl rfl
    · cases hl : tr.login1 with
      | error u => exact Or.inr (Or.inl rfl)
      | ok resp =>
        dsimp only
        by_cases hs : resp.status = 200
        · rw [if_pos hs]
          obtain ⟨r, t, e, hj⟩ := hwf resp hl hs
          rw [hj]
          dsimp only
          exact Or.inr (Or.inr ⟨resp, r, t, e, rfl, hs, hj, rfl⟩)
        · rw [if_neg hs]
          cases tr.register with
          | error u => exact Or.inr (Or.inl rfl)
          | ok rr =>
            dsimp only
            by_cases h201 : rr.status = 201
            · rw [if_pos h201]
              cases tr.login2 with
              | error u => exact Or.inr (Or.inl rfl)
              | ok lr =>
                dsimp only
                by_cases h200 : lr.status = 200
                · rw [if_pos h200]
                  exact Or.inr (Or.inl rfl)
                · rw [if_neg h200]
                  exact Or.inl rfl
            · rw [if_neg h201]
              exact Or.inl rfl
  · rw [get_user_context_async]
    split_ifs with hf he
    · exact Or.inl rfl
    · exact Or.inl rfl
    · cases hl : tr.login1 with
      | error u => exact Or.inr (Or.inl rfl)
      | ok resp =>
        dsimp only
        by_cases hs : resp.status = 200
        · rw [if_pos hs]
          obtain ⟨r, t, e, hj⟩ := hwf resp hl hs
          rw [hj]
          dsimp only
          exact Or.inr (Or.inr ⟨resp, r, t, e, rfl, hs, hj, rfl⟩)
        · rw [if_neg hs]
          cases tr.register with
          | error u => exact Or.inr (Or.inl rfl)
          | ok rr =>
            dsimp only
            by_cases h201 : rr.status = 201
            · rw [if_pos h201]
              cases tr.login2 with
              | error u => exact Or.inr (Or.inl rfl)
              | ok lr =>
                dsimp only
                by_cases h200 : lr.status = 200
                · rw [if_pos h200]
                  cases hroot : lr.json.user_root_id with
                  | none => exact Or.inr (Or.inl rfl)
                  | some r2 =>
                    dsimp only
                    cases htok : lr.json.token with
                    | none => exact Or.inr (Or.inl rfl)
                    | some t2 =>
                      dsimp only
                      cases hexp : lr.json.user_expiration with
                      | none => exact Or.inr (Or.inl rfl)
                      | some e2 => exact Or.inl rfl
                · rw [if_neg h200]
                  exact Or.inl rfl
            · rw [if_neg h201]
              exact Or.inl rfl

/-- Witness for the amended C4: stale cache, fully populated 200 login
response — the amended disjunction holds at this input. -/
theorem cred_update_atomic_witness :
    ((get_user_context credW 5 (some "u".data) (some "p".data) trW).1 =
        credW ∨
     (get_user_context credW 5 (some "u".data) (some "p".data) trW).1 =
        clearExp credW ∨
     ∃ resp r t e, trW.login1 = Except.ok resp ∧ resp.status = 200 ∧
       resp.json = ⟨some r, some t, some e⟩ ∧
       (get_user_context credW 5 (some "u".data) (some "p".data) trW).1 =
         ⟨r, t, e⟩) ∧
    ((get_user_context_async credW 5 (some "u".data) (some "p".data) trW).1 =
        credW ∨
     (get_user_context_async credW 5 (some "u".data) (some "p".data) trW).1 =
        clearExp credW ∨
     ∃ resp r t e, trW.login1 = Except.ok resp ∧ resp.status = 200 ∧
       resp.json = ⟨some r, some t, some e⟩ ∧
       (get_user_context_async credW 5 (some "u".data)
           (some "p".data) trW).1 = ⟨r, t, e⟩) :=
  cred_update_atomic credW 5 (some "u".data) (some "p".data) trW
    (by
      intro resp hresp hs
      injection hresp with h
      subst h
      exact ⟨"r1".data, "t1".data, "9".data, rfl⟩)

/-- C7: with a fresh cached expiration (a digit string beyond the current
time) both flow variants make zero outbound calls and return the cached
triple unchanged; with a non-fresh expiration and configured credentials,
both variants open with a login attempt on the stub transport. -/
theorem cred_cache_behavior (st : Cred) (now : Nat)
    (user password : Option (List Char)) (tr : AuthTransport)
    (huser : user.getD [] ≠ []) (hpass : password.getD [] ≠ []) :
    (credFresh st now = true →
      get_user_context st now user password tr =
        (st, ⟨some st.root_id, some st.token, some st.expiration⟩, []) ∧
      get_user_context_async st now user password tr =
        (st, ⟨some st.root_id, some st.token, some st.expiration⟩, [])) ∧
    (credFresh st now = false →
      (get_user_context st now user password tr).2.2.head? =
        some AuthCall.login ∧
      (get_user_context_async st now user password tr).2.2.head? =
        some AuthCall.login) := by
  have hu : (user.getD []).isEmpty = false := by
    cases h : (user.getD []).isEmpty with
    | false => rfl
    | true => exact absurd (List.isEmpty_iff.mp h) huser
  have hp : (password.getD []).isEmpty = false := by
    cases h : (password.getD []).isEmpty with
    | false => rfl
    | true => exact absurd (List.isEmpty_iff.mp h) hpass
  constructor
  · intro hf
    constructor
    · rw [get_user_context, if_pos hf]
    · rw [get_user_context_async, if_pos hf]
  · intro hnf
    constructor
    · rw [get_user_context, if_neg (by simp [hnf]), if_neg (by simp [hu, hp])]
      repeat' split
      all_goals rfl
    · rw [get_user_context_async, if_neg (by simp [hnf]),
        if_neg (by simp [hu, hp])]
      repeat' split
      all_goals rfl

/-- Witness for C7: a fresh cache makes zero calls and returns the triple. -/
theorem cred_cache_behavior_witness :
    get_user_context credFW 5 (some "u".data) (some "p".data) trW =
      (credFW, ⟨some credFW.root_id, some credFW.token,
        some credFW.expiration⟩, []) :=
  ((cred_cache_behavior credFW 5 (some "u".data) (some "p".data) trW
    (by decide) (by decide)).1 (by decide)).1

/-- C6 (counterexample): `LocalFileInterface.save_file` has no exception
handling — a fault in the underlying write propagates to the caller as a
raised `OSError` rather than a `False` result. -/
theorem local_save_fault_counterexample :
    LocalFileInterface.save_file
        ⟨[], fun _ => false, fun _ => true, fun _ => false, fun _ => false⟩
        "r".data "f".data [] = Except.error PyError.osError := rfl

/-- C6 (amended): the normalization holds for the remote backend — all four
S3 operations swallow every backend exception and return an
absence/failure value — and on the local backend for the missing-file case
of get/delete/url; the local operations' own filesystem primitives are
unguarded, so an OS fault there propagates (see the counterexample). -/
theorem storage_error_normalization (s3 : S3Stub) (d : Disk)
    (root name baseUrl : List Char) (content : FileBytes) :
    ((∃ v, S3FileInterface.get_file s3 root name = Except.ok v) ∧
     (∃ b, S3FileInterface.save_file s3 root name content = Except.ok b) ∧
     (∃ b, S3FileInterface.delete_file s3 root name = Except.ok b) ∧
     (∃ u, S3FileInterface.get_file_url s3 root name = Except.ok u)) ∧
    (diskExists d (joinPath root name) = false →
      LocalFileInterface.get_file d root name = Except.ok none ∧
      LocalFileInterface.delete_file d root name = Except.ok (d, false) ∧
      LocalFileInterface.get_file_url d root name baseUrl = none) := by
  refine ⟨⟨⟨_, rfl⟩, ⟨_, rfl⟩, ⟨_, rfl⟩, ⟨_, rfl⟩⟩, fun h => ?_⟩
  exact ⟨by simp [LocalFileInterface.get_file, h],
    by simp [LocalFileInterface.delete_file, h],
    by simp [LocalFileInterface.get_file_url, h]⟩

/-- Witness for the amended C6 on an empty fault-free disk and an S3 stub
whose get/put/delete calls all raise. -/
theorem storage_error_normalization_witness :
    (∃ v, S3FileInterface.get_file s3W "r".data "f".data = Except.ok v) ∧
    LocalFileInterface.get_file diskW "r".data "f".data = Except.ok none :=
  ⟨(storage_error_normalization s3W diskW "r".data "f".data "b".data []).1.1,
    ((storage_error_normalization s3W diskW "r".data "f".data
      "b".data []).2 rfl).1⟩

/-- C10: the S3 backend's url operation returns a pre-signed URL (requested
with a 3600-second expiry) whenever the presign call succeeds, with no
existence check — also for names never saved or already deleted — while the
local backend's url operation returns `none` for any name absent from
disk. -/
theorem url_existence_semantics (s3 : S3Stub) (d : Disk)
    (root name baseUrl : List Char)
    (hp : ∃ u, s3.presign (joinPath root name) 3600 = Except.ok u)
    (hd : diskExists d (joinPath root name) = false) :
    (∃ u, S3FileInterface.get_file_url s3 root name = Except.ok (some u)) ∧
    LocalFileInterface.get_file_url d root name baseUrl = none := by
  obtain ⟨u, hu⟩ := hp
  refine ⟨⟨u, ?_⟩, ?_⟩
  · rw [S3FileInterface.get_file_url, hu]
  · simp [LocalFileInterface.get_file_url, hd]

/-- Witness for C10: the stub presigns every key; the empty disk holds no
file, so the local url is `none` while the S3 url is present. -/
theorem url_existence_semantics_witness :
    (∃ u, S3FileInterface.get_file_url s3W "r".data "f".data =
      Except.ok (some u)) ∧
    LocalFileInterface.get_file_url diskW "r".data "f".data "b".data = none :=
  url_existence_semantics s3W diskW "r".data "f".data "b".data
    ⟨"u".data, rfl⟩ rfl

/-- `json.loads` accepts the CPython extra `Infinity`, a truthy float. -/
theorem loads_infinity :
    loads "Infinity".data = some (JsonValue.inf false) ∧
    (JsonValue.inf false).truthy = true := ⟨rfl, rfl⟩

/-- `json.loads` accepts the CPython extra `NaN`, a truthy float. -/
theorem loads_nan :
    loads "NaN".data = some JsonValue.nan ∧ JsonValue.nan.truthy = true :=
  ⟨rfl, rfl⟩

/-- `json.loads` accepts the CPython extra `-Infinity` (tried after the
number grammar fails), a truthy float. -/
theorem loads_neg_infinity :
    loads "-Infinity".data = some (JsonValue.inf true) ∧
    (JsonValue.inf true).truthy = true := ⟨rfl, rfl⟩

/-- A webhook key whose decrypted plaintext is `Infinity` decodes to a
truthy non-dict float, so `webhook_exec` raises `AttributeError` at
`args.get` — the nonfinite constants do not slip into the 200 path. -/
theorem webhook_exec_infinity_raises :
    webhook_exec "S".data
      ⟨Method.get, [], none,
        urlquote (str_translate (encTable "S".data) "Infinity".data)⟩
      ⟨true, fun _ => Except.ok SpawnResp.nonev⟩ =
      Except.error PyError.attributeError := rfl

/-- The form field `args="[[[],0]]"` parses to a single two-element pair
whose key is a list — unhashable, so `dict.update` raises `TypeError`. -/
theorem loads_unhashable_pair :
    loads "[[[],0]]".data =
      some (JsonValue.arr [JsonValue.arr [JsonValue.arr [],
        JsonValue.num 0 0]]) ∧
    updateCompatible (JsonValue.arr [JsonValue.arr [JsonValue.arr [],
      JsonValue.num 0 0]]) = false := ⟨rfl, rfl⟩

/-- With empty `module_root` and `args="[[[],0]]"` the handler returns the
500 `"internal server error"` response — the `TypeError` raised by
`attributes.update` on the unhashable key preempts the 401 check. -/
theorem action_walker_unhashable_args_500 :
    action_walker_exec
      ⟨"a1".data, "".data, "w1".data, some "[[[],0]]".data, []⟩
      ⟨true, Except.ok SpawnResp.nonev⟩ =
      Except.ok ⟨500, JsonValue.str "internal server error".data⟩ := rfl
